import Mathlib

/-!
# libhildondesktop: reconciliation and plugin-configuration bookkeeping

A shallow embedding of

* `create_sync_lists` from `libhildondesktop/hd-shortcuts.c`,
* the directory-change handler, the configuration loading and the accessors
  of `libhildondesktop/hd-plugin-configuration.c`, and
* the loading, unloading, type registration and object construction of
  `libhildondesktop/hd-plugin-module.c`,

together with the properties of them that the specification states.

C strings are embedded as `String`, `GSList *` as `List`, a `GHashTable` whose
values are all the constant `GUINT_TO_POINTER (1)` as the list of its keys.
Functions of GLib used by the code (`strcmp`, `g_slist_sort`,
`g_str_has_suffix`, `g_strstrip`, `g_build_filename`, the hash table
operations) are embedded by their documented behaviour.
-/

namespace HildonDesktop

/-! ## C library and GLib helpers -/

/-- The comparison of `strcmp` on the characters of two strings: the sign of
the first difference, the shorter string first when one is a prefix of the
other.  Characters are compared by their code, which for UTF-8 text is the
order of the bytes that C compares. -/
def strcmp_chars : List Char → List Char → Int
  | [], [] => 0
  | [], _ :: _ => -1
  | _ :: _, [] => 1
  | a :: as, b :: bs =>
    if a.toNat < b.toNat then -1
    else if b.toNat < a.toNat then 1
    else strcmp_chars as bs

/-- The C function `strcmp`: negative, zero or positive as `s1` is less than,
equal to or greater than `s2`. -/
def strcmp (s1 s2 : String) : Int := strcmp_chars s1.data s2.data

/-- GLib `g_slist_sort`: sorts the list with `compare_func`, an element going
before another when `compare_func` of the two is not positive.  The sort is
stable. -/
def g_slist_sort {α : Type} (list : List α) (compare_func : α → α → Int) : List α :=
  list.insertionSort (fun a b => compare_func a b ≤ 0)

/-- GLib `g_ascii_isspace`: space, form feed, newline, carriage return,
horizontal tab and vertical tab. -/
def g_ascii_isspace (c : Char) : Bool :=
  c == ' ' || c == Char.ofNat 12 || c == Char.ofNat 10 || c == Char.ofNat 13 ||
    c == Char.ofNat 9 || c == Char.ofNat 11

/-- GLib `g_strchug`: removes leading whitespace. -/
def g_strchug (string : String) : String :=
  ⟨string.data.dropWhile g_ascii_isspace⟩

/-- GLib `g_strchomp`: removes trailing whitespace. -/
def g_strchomp (string : String) : String :=
  ⟨(string.data.reverse.dropWhile g_ascii_isspace).reverse⟩

/-- GLib `g_strstrip`: removes leading and trailing whitespace. -/
def g_strstrip (string : String) : String :=
  g_strchomp (g_strchug string)

/-- GLib `g_str_has_suffix`: false when `str` is shorter than `suffix`,
otherwise whether the last `strlen (suffix)` characters of `str` compare equal
to `suffix`. -/
def g_str_has_suffix (str suffix : String) : Bool :=
  let str_len := str.data.length
  let suffix_len := suffix.data.length
  if str_len < suffix_len then false
  else strcmp_chars (str.data.drop (str_len - suffix_len)) suffix.data == 0

/-- The local variables of GLib `g_build_path_va` while it walks the path
elements. -/
structure BuildPath where
  result : List Char
  is_first : Bool
  have_leading : Bool
  single_element : Option (List Char)
  last_trailing : Option (List Char)

/-- One round of the loop of GLib `g_build_path_va` with separator `/`: an
empty element is skipped; otherwise the leading separators of the first
non-empty element are kept, the element without its leading and trailing
separators is appended after one separator, and the trailing separators of the
element are remembered. -/
def g_build_path_step (st : BuildPath) (element : List Char) : BuildPath :=
  if element.isEmpty then st
  else
    let leading := element.takeWhile (fun c => c == '/')
    let start := element.dropWhile (fun c => c == '/')
    let body := (start.reverse.dropWhile (fun c => c == '/')).reverse
    let last_trailing := if body.isEmpty then element else start.drop body.length
    let st1 : BuildPath :=
      if st.have_leading then
        { st with single_element := none, last_trailing := some last_trailing }
      else
        { st with
          single_element := if body.isEmpty then some element else st.single_element
          result := st.result ++ leading
          have_leading := true
          last_trailing := some last_trailing }
    if body.isEmpty then st1
    else
      { st1 with
        result := (if st1.is_first then st1.result else st1.result ++ ['/']) ++ body
        is_first := false }

/-- GLib `g_build_filename` on a system whose directory separator is `/`:
joins the elements with exactly one separator at each boundary. -/
def g_build_filename (elements : List String) : String :=
  let st := (elements.map String.data).foldl g_build_path_step
    { result := [], is_first := true, have_leading := false,
      single_element := none, last_trailing := none }
  match st.single_element with
  | some element => ⟨element⟩
  | none => ⟨st.result ++ st.last_trailing.getD []⟩

/-- A `GHashTable` with string keys whose values are all the constant
`GUINT_TO_POINTER (1)`: the list of its keys. -/
abbrev GHashTable := List String

/-- GLib `g_hash_table_lookup`, as the truth value of the pointer returned:
the stored value `GUINT_TO_POINTER (1)` when the key is present, `NULL`
otherwise. -/
def g_hash_table_lookup (hash_table : GHashTable) (key : String) : Bool :=
  decide (key ∈ hash_table)

/-- GLib `g_hash_table_insert`: a key already present keeps its entry (the
value is replaced by the same constant), a new key gets an entry. -/
def g_hash_table_insert (hash_table : GHashTable) (key : String) : GHashTable :=
  if key ∈ hash_table then hash_table else hash_table ++ [key]

/-- GLib `g_hash_table_remove`: removes the entry of the key, if any. -/
def g_hash_table_remove (hash_table : GHashTable) (key : String) : GHashTable :=
  hash_table.filter (fun k => k != key)

/-- GLib `g_hash_table_remove_all`. -/
def g_hash_table_remove_all (_hash_table : GHashTable) : GHashTable := []

/-! ## `hd-plugin-configuration.c` -/

/-- The constant `HD_PLUGIN_CONFIGURATION_CONFIG_GROUP`. -/
def HD_PLUGIN_CONFIGURATION_CONFIG_GROUP : String := "X-PluginManager"

/-- The constant `HD_PLUGIN_CONFIGURATION_CONFIG_KEY_PLUGIN_CONFIGURATION`. -/
def HD_PLUGIN_CONFIGURATION_CONFIG_KEY_PLUGIN_CONFIGURATION : String :=
  "X-Plugin-Configuration"

/-- The events of `GFileMonitorEvent` that the handler names in its
`event_string` table, in the order of the enumeration, and `OTHER` for any
later value. -/
inductive GFileMonitorEvent where
  | CHANGED
  | CHANGES_DONE_HINT
  | DELETED
  | CREATED
  | ATTRIBUTE_CHANGED
  | PRE_UNMOUNT
  | UNMOUNTED
  | MOVED
  | OTHER
  deriving DecidableEq, Repr

/-- A parsed `GKeyFile`, seen through the three queries the code makes. -/
structure GKeyFile where
  g_key_file_has_group : String → Bool
  g_key_file_get_string_list : String → String → Option (List String)
  g_key_file_get_string : String → String → Option String

/-- GLib `g_key_file_new`: a key file without groups. -/
def g_key_file_new : GKeyFile :=
  { g_key_file_has_group := fun _ => false
    g_key_file_get_string_list := fun _ _ => none
    g_key_file_get_string := fun _ _ => none }

/-- A `HDConfigFile`: the two configuration directories and the file name it
was created with (`hd_config_file_new`). -/
structure HDConfigFile where
  system_conf_dir : String
  user_conf_dir : String
  filename : String
  deriving DecidableEq, Repr

/-- The constructor `hd_config_file_new (system_conf_dir, user_conf_dir,
filename)`. -/
def hd_config_file_new (system_conf_dir user_conf_dir filename : String) : HDConfigFile :=
  { system_conf_dir := system_conf_dir, user_conf_dir := user_conf_dir, filename := filename }

/-- The private data of a `HDPluginConfiguration`.  A `GFile` and a
`GFileMonitor` of a plugin directory are identified by the path of the
directory; the three arrays are `NULL` (`none`, `[]`) or run in parallel. -/
structure HDPluginConfigurationPrivate where
  config_file : HDConfigFile
  items_config_file : Option HDConfigFile
  items_key_file : Option GKeyFile
  plugin_dirs : Option (List String)
  plugin_dir_files : List String
  plugin_dir_monitors : List String
  available_plugins : GHashTable
  startup : Bool

/-- The signals of `plugin_configuration_signals` with their argument. -/
inductive PluginSignal where
  | PLUGIN_MODULE_ADDED (desktop_file : String)
  | PLUGIN_MODULE_REMOVED (desktop_file : String)
  | PLUGIN_MODULE_UPDATED (desktop_file : String)
  | CONFIGURATION_LOADED (keyfile : GKeyFile)
  | ITEMS_CONFIGURATION_LOADED (keyfile : GKeyFile)

/-- What a handler does to the world outside the private data, in the order
in which it does it. -/
inductive Effect where
  | g_signal_emit (signal : PluginSignal)
  | g_file_monitor_cancel (dir : String)
  | g_file_monitor_directory (dir : String)
  | g_dir_open (dir : String)
  | g_object_notify (property : String)

/-- The world a handler runs in: the directories that `g_dir_open` can open
with the names `g_dir_read_name` then yields, the key file that
`hd_config_file_load_file` yields for a configuration file, and the constant
`HD_DESKTOP_CONFIG_KEY_PLUGIN_DIR` of `hd-config.h`. -/
structure World where
  g_dir_open : String → Option (List String)
  hd_config_file_load_file : HDConfigFile → Option GKeyFile
  HD_DESKTOP_CONFIG_KEY_PLUGIN_DIR : String

/-- The handler `hd_plugin_configuration_plugin_dir_changed` of the `changed`
signal of a directory monitor, for the file at `path`.  Returns the new
private data and the signals emitted. -/
def hd_plugin_configuration_plugin_dir_changed (priv : HDPluginConfigurationPrivate)
    (path : String) (event_type : GFileMonitorEvent) :
    HDPluginConfigurationPrivate × List Effect :=
  if !g_str_has_suffix path ".desktop" then
    (priv, [])
  else if event_type = GFileMonitorEvent.CREATED ∨ event_type = GFileMonitorEvent.CHANGED then
    if g_hash_table_lookup priv.available_plugins path then
      (priv, [Effect.g_signal_emit (PluginSignal.PLUGIN_MODULE_UPDATED path)])
    else
      ({ priv with available_plugins := g_hash_table_insert priv.available_plugins path },
       [Effect.g_signal_emit (PluginSignal.PLUGIN_MODULE_ADDED path)])
  else if event_type = GFileMonitorEvent.DELETED then
    ({ priv with available_plugins := g_hash_table_remove priv.available_plugins path },
     [Effect.g_signal_emit (PluginSignal.PLUGIN_MODULE_REMOVED path)])
  else
    (priv, [])

/-- The function `hd_plugin_configuration_load_plugin_configuration`: the old
items key file is dropped, the items configuration file is loaded when there is
one, and an empty key file is used when nothing was loaded. -/
def hd_plugin_configuration_load_plugin_configuration (w : World)
    (priv : HDPluginConfigurationPrivate) : HDPluginConfigurationPrivate × List Effect :=
  let items_key_file : Option GKeyFile :=
    match priv.items_config_file with
    | some file => w.hd_config_file_load_file file
    | none => none
  let items_key_file : GKeyFile :=
    match items_key_file with
    | some keyfile => keyfile
    | none => g_key_file_new
  ({ priv with items_key_file := some items_key_file },
   [Effect.g_object_notify "plugin-config-key-file",
    Effect.g_signal_emit (PluginSignal.ITEMS_CONFIGURATION_LOADED items_key_file)])

/-- The inner loop of `hd_plugin_configuration_configuration_loaded` over the
names read from one directory: each name ending in `.desktop` is inserted
under the file name built from the directory and the name. -/
def read_plugin_dir (dir : String) (names : List String) (available_plugins : GHashTable) :
    GHashTable :=
  names.foldl
    (fun table name =>
      if !g_str_has_suffix name ".desktop" then table
      else g_hash_table_insert table (g_build_filename [dir, name]))
    available_plugins

/-- The loop of `hd_plugin_configuration_configuration_loaded` over the
(stripped) plugin directories: each directory gets a monitor and is then
opened; a directory that cannot be opened is skipped. -/
def scan_plugin_dirs (w : World) :
    List String → GHashTable → GHashTable × List Effect
  | [], available_plugins => (available_plugins, [])
  | dir :: dirs, available_plugins =>
    let effects := [Effect.g_file_monitor_directory dir, Effect.g_dir_open dir]
    match w.g_dir_open dir with
    | none =>
      let r := scan_plugin_dirs w dirs available_plugins
      (r.1, effects ++ r.2)
    | some names =>
      let r := scan_plugin_dirs w dirs (read_plugin_dir dir names available_plugins)
      (r.1, effects ++ r.2)

/-- The class handler `hd_plugin_configuration_configuration_loaded` of the
`configuration-loaded` signal. -/
def hd_plugin_configuration_configuration_loaded (w : World)
    (priv : HDPluginConfigurationPrivate) (keyfile : GKeyFile) :
    HDPluginConfigurationPrivate × List Effect :=
  -- free old configuration
  let cancelled : List Effect :=
    match priv.plugin_dirs with
    | some dirs => (dirs.zip priv.plugin_dir_monitors).map
        (fun entry => Effect.g_file_monitor_cancel entry.2)
    | none => []
  let priv : HDPluginConfigurationPrivate :=
    match priv.plugin_dirs with
    | some _ => { priv with plugin_dir_monitors := [], plugin_dir_files := [], plugin_dirs := none }
    | none => priv
  let priv := { priv with items_config_file := none }
  let priv := { priv with available_plugins := g_hash_table_remove_all priv.available_plugins }
  if !keyfile.g_key_file_has_group HD_PLUGIN_CONFIGURATION_CONFIG_GROUP then
    (priv, cancelled)
  else
    match keyfile.g_key_file_get_string_list HD_PLUGIN_CONFIGURATION_CONFIG_GROUP
        w.HD_DESKTOP_CONFIG_KEY_PLUGIN_DIR with
    | none => (priv, cancelled)
    | some plugin_dirs =>
      let plugin_dirs := plugin_dirs.map g_strstrip
      let scanned := scan_plugin_dirs w plugin_dirs priv.available_plugins
      let priv := { priv with
        plugin_dirs := some plugin_dirs
        plugin_dir_files := plugin_dirs
        plugin_dir_monitors := plugin_dirs
        available_plugins := scanned.1 }
      let priv : HDPluginConfigurationPrivate :=
        match keyfile.g_key_file_get_string HD_PLUGIN_CONFIGURATION_CONFIG_GROUP
            HD_PLUGIN_CONFIGURATION_CONFIG_KEY_PLUGIN_CONFIGURATION with
        | some items_config_filename =>
          let items_config_file := hd_config_file_new priv.config_file.system_conf_dir
            priv.config_file.user_conf_dir (g_strstrip items_config_filename)
          { priv with items_config_file := some items_config_file }
        | none => priv
      let loaded := hd_plugin_configuration_load_plugin_configuration w priv
      (loaded.1, cancelled ++ scanned.2 ++ loaded.2)

/-- The function `hd_plugin_configuration_load_configuration`, the handler of
the `changed` signal of the configuration file (a reload): the file is loaded;
without a key file nothing else happens, with one `configuration-loaded` is
emitted, whose class handler `hd_plugin_configuration_configuration_loaded`
then runs. -/
def hd_plugin_configuration_load_configuration (w : World)
    (priv : HDPluginConfigurationPrivate) : HDPluginConfigurationPrivate × List Effect :=
  match w.hd_config_file_load_file priv.config_file with
  | none => (priv, [])
  | some keyfile =>
    let handled := hd_plugin_configuration_configuration_loaded w priv keyfile
    (handled.1, Effect.g_signal_emit (PluginSignal.CONFIGURATION_LOADED keyfile) :: handled.2)

/-- The private data after `hd_plugin_configuration_new (config_file)`:
`hd_plugin_configuration_init` sets the startup flag and creates the empty
table of available plugins, the other fields are zero, and the construction
property `conf-file` stores the configuration file. -/
def hd_plugin_configuration_new (config_file : HDConfigFile) : HDPluginConfigurationPrivate :=
  { config_file := config_file
    items_config_file := none
    items_key_file := none
    plugin_dirs := none
    plugin_dir_files := []
    plugin_dir_monitors := []
    available_plugins := []
    startup := true }

/-- The function `hd_plugin_configuration_run`: the configuration is loaded and
the startup flag is cleared. -/
def hd_plugin_configuration_run (w : World) (priv : HDPluginConfigurationPrivate) :
    HDPluginConfigurationPrivate × List Effect :=
  let loaded := hd_plugin_configuration_load_configuration w priv
  ({ loaded.1 with startup := false }, loaded.2)

/-- The function `hd_plugin_configuration_get_in_startup`. -/
def hd_plugin_configuration_get_in_startup (priv : HDPluginConfigurationPrivate) : Bool :=
  priv.startup

/-- The function `hd_plugin_configuration_store_items_key_file`, given what
`hd_config_file_save_file` of `hd-config-file.c` returns for a file and a key
file.  The result is the value returned and the list of the calls of
`hd_config_file_save_file` made. -/
def hd_plugin_configuration_store_items_key_file
    (hd_config_file_save_file : HDConfigFile → Option GKeyFile → Bool)
    (priv : HDPluginConfigurationPrivate) : Bool × List (HDConfigFile × Option GKeyFile) :=
  match priv.items_config_file with
  | some items_config_file =>
    (hd_config_file_save_file items_config_file priv.items_key_file,
     [(items_config_file, priv.items_key_file)])
  | none => (false, [])

/-- What can happen to a `HDPluginConfiguration` after its construction: a
call of `hd_plugin_configuration_run`, a `changed` signal of the configuration
file, a `changed` signal of the items configuration file, a `changed` signal
of a directory monitor. -/
inductive PluginConfigurationCall where
  | run
  | config_file_changed
  | items_config_file_changed
  | plugin_dir_changed (path : String) (event_type : GFileMonitorEvent)
  deriving DecidableEq

/-- The private data after one call, in the world in which it happens.  The
items configuration file can only signal a change while there is one. -/
def plugin_configuration_step (priv : HDPluginConfigurationPrivate)
    (call : World × PluginConfigurationCall) : HDPluginConfigurationPrivate :=
  match call.2 with
  | PluginConfigurationCall.run => (hd_plugin_configuration_run call.1 priv).1
  | PluginConfigurationCall.config_file_changed =>
    (hd_plugin_configuration_load_configuration call.1 priv).1
  | PluginConfigurationCall.items_config_file_changed =>
    match priv.items_config_file with
    | some _ => (hd_plugin_configuration_load_plugin_configuration call.1 priv).1
    | none => priv
  | PluginConfigurationCall.plugin_dir_changed path event_type =>
    (hd_plugin_configuration_plugin_dir_changed priv path event_type).1

/-- The private data after a sequence of calls, each in its own world. -/
def plugin_configuration_steps (priv : HDPluginConfigurationPrivate)
    (calls : List (World × PluginConfigurationCall)) : HDPluginConfigurationPrivate :=
  calls.foldl plugin_configuration_step priv

/-! ## `hd-plugin-module.c` -/

/-- A `GType`, the numeric identifier of a registered type. -/
abbrev GType := Nat

/-- An entry point `void (*) (HDPluginModule *plugin)` of a plugin library,
given by what it does to the module: the types it passes, in order, to
`hd_plugin_module_add_type`. -/
abbrev EntryPoint := List GType

/-- A library opened by `g_module_open`: its file name and the entry points
that `g_module_symbol` resolves in it. -/
structure GModule where
  file_name : String
  symbols : List (String × EntryPoint)
  deriving DecidableEq, Repr

/-- GLib `g_module_symbol`: the symbol of that name, `none` when the library
has none (the pointer is then set to `NULL` and `FALSE` returned). -/
def g_module_symbol (library : GModule) (symbol_name : String) : Option EntryPoint :=
  library.symbols.lookup symbol_name

/-- The private data of a `HDPluginModule`. -/
structure HDPluginModulePrivate where
  path : Option String
  library : Option GModule
  gtypes : List GType
  load : Option EntryPoint
  unload : Option EntryPoint
  deriving DecidableEq, Repr

/-- What the functions of a `HDPluginModule` do outside the private data, in
order: a call of `g_module_open` with its result, a call of `g_module_close`,
a call of the entry point stored in `load` or in `unload`, a call of
`g_type_set_qdata` storing the module path in a type. -/
inductive ModuleEffect where
  | g_module_open (file_name : String) (library : Option GModule)
  | g_module_close (library : GModule)
  | call_load
  | call_unload
  | g_type_set_qdata (type : GType) (dl_filename : Option String)
  deriving DecidableEq, Repr

/-- The private data after `hd_plugin_module_new (path)`:
`hd_plugin_module_init` clears every field and the construction property
`path` stores the path. -/
def hd_plugin_module_new (path : String) : HDPluginModulePrivate :=
  { path := some path, library := none, gtypes := [], load := none, unload := none }

/-- The function `hd_plugin_module_add_type`: with a type already registered
it only warns; otherwise the module path is stored in the type and the type is
appended to `gtypes`. -/
def hd_plugin_module_add_type (priv : HDPluginModulePrivate) (type : GType) :
    HDPluginModulePrivate × List ModuleEffect :=
  if priv.gtypes ≠ [] then
    (priv, [])
  else
    ({ priv with gtypes := priv.gtypes ++ [type] },
     [ModuleEffect.g_type_set_qdata type priv.path])

/-- A run of an entry point on the module: its calls of
`hd_plugin_module_add_type`, one after the other. -/
def call_entry_point (priv : HDPluginModulePrivate) :
    EntryPoint → HDPluginModulePrivate × List ModuleEffect
  | [] => (priv, [])
  | type :: types =>
    let added := hd_plugin_module_add_type priv type
    let rest := call_entry_point added.1 types
    (rest.1, added.2 ++ rest.2)

/-- The function `hd_plugin_module_load`, the `load` method of the
`GTypeModule`, given what `g_module_open` yields for a file name.  The result
is the private data, the value returned and what was done. -/
def hd_plugin_module_load (g_module_open : String → Option GModule)
    (priv : HDPluginModulePrivate) : HDPluginModulePrivate × Bool × List ModuleEffect :=
  match priv.path with
  | none => (priv, false, [])
  | some path =>
    let opened := ModuleEffect.g_module_open path (g_module_open path)
    match g_module_open path with
    | none => ({ priv with library := none }, false, [opened])
    | some library =>
      let priv := { priv with library := some library }
      match g_module_symbol library "hd_plugin_module_load" with
      | none =>
        ({ priv with load := none }, false, [opened, ModuleEffect.g_module_close library])
      | some load =>
        let priv := { priv with load := some load }
        match g_module_symbol library "hd_plugin_module_unload" with
        | none =>
          ({ priv with unload := none }, false, [opened, ModuleEffect.g_module_close library])
        | some unload =>
          let priv := { priv with unload := some unload }
          let called := call_entry_point priv load
          (called.1, true, [opened, ModuleEffect.call_load] ++ called.2)

/-- The function `hd_plugin_module_unload`, the `unload` method of the
`GTypeModule`.  The result is `none` when `unload` is `NULL`, for the call
through it has no defined behaviour; otherwise the entry point runs, the
library (if the field holds one) is closed and the fields are cleared. -/
def hd_plugin_module_unload (priv : HDPluginModulePrivate) :
    Option (HDPluginModulePrivate × List ModuleEffect) :=
  match priv.unload with
  | none => none
  | some unload =>
    let called := call_entry_point priv unload
    let closed : List ModuleEffect :=
      match called.1.library with
      | some library => [ModuleEffect.g_module_close library]
      | none => []
    some ({ called.1 with library := none, load := none, unload := none, gtypes := [] },
          [ModuleEffect.call_unload] ++ called.2 ++ closed)

/-- The type system as `hd_plugin_module_new_object` sees it: `g_type_is_a`
and the type `HD_TYPE_PLUGIN_ITEM` of `hd-plugin-item.h`. -/
structure TypeSystem where
  g_type_is_a : GType → GType → Bool
  HD_TYPE_PLUGIN_ITEM : GType

/-- An object made by `g_object_new (type, ...)`: its type and the
construction properties passed. -/
structure GObject where
  type : GType
  properties : List (String × String)
  deriving DecidableEq, Repr

/-- GLib `g_object_new`. -/
def g_object_new (type : GType) (properties : List (String × String)) : GObject :=
  { type := type, properties := properties }

/-- The function `hd_plugin_module_new_object`: an object of the first
registered type, with the property `plugin-id` when the type is a
`HD_TYPE_PLUGIN_ITEM`; `NULL` without a registered type. -/
def hd_plugin_module_new_object (types : TypeSystem) (priv : HDPluginModulePrivate)
    (plugin_id : String) : Option GObject :=
  match priv.gtypes with
  | type :: _ =>
    if types.g_type_is_a type types.HD_TYPE_PLUGIN_ITEM then
      some (g_object_new type [("plugin-id", plugin_id)])
    else
      some (g_object_new type [])
  | [] => none

/-- The open library handles after a sequence of effects, from the handles open
before: `g_module_open` that yields a library adds a handle to it,
`g_module_close` releases one. -/
def g_module_handles (handles : List GModule) : List ModuleEffect → List GModule
  | [] => handles
  | ModuleEffect.g_module_open _ (some library) :: effects =>
    g_module_handles (library :: handles) effects
  | ModuleEffect.g_module_close library :: effects =>
    g_module_handles (handles.erase library) effects
  | _ :: effects => g_module_handles handles effects

/-! ## The scenario of the specification, as concrete values -/

/-- A world in which the directory `/a` holds `x.desktop` and no other
directory can be opened. -/
def scenario_world : World :=
  { g_dir_open := fun dir => if dir = "/a" then some ["x.desktop"] else none
    hd_config_file_load_file := fun _ => none
    HD_DESKTOP_CONFIG_KEY_PLUGIN_DIR := "X-Plugin-Dirs" }

/-- A key file whose `X-PluginManager` group lists the plugin directory
`/a`. -/
def scenario_keyfile : GKeyFile :=
  { g_key_file_has_group := fun group => group == "X-PluginManager"
    g_key_file_get_string_list := fun group key =>
      if group = "X-PluginManager" ∧ key = "X-Plugin-Dirs" then some ["/a"] else none
    g_key_file_get_string := fun _ _ => none }

/-- Private data in which `/a/x.desktop` is the only available plugin and
`/a` the only plugin directory. -/
def scenario_priv : HDPluginConfigurationPrivate :=
  { config_file := hd_config_file_new "/etc/hildon-desktop" "/home/user/.config" "home.conf"
    items_config_file := none
    items_key_file := none
    plugin_dirs := some ["/a"]
    plugin_dir_files := ["/a"]
    plugin_dir_monitors := ["/a"]
    available_plugins := ["/a/x.desktop"]
    startup := false }

/-- The world of the scenario after the configuration file has been replaced
by one without any group. -/
def scenario_world_no_group : World :=
  { scenario_world with hd_config_file_load_file := fun _ => some g_key_file_new }

/-- A plugin library with both entry points, whose `hd_plugin_module_load`
registers the type `7`. -/
def scenario_library : GModule :=
  { file_name := "/usr/lib/plugin.so"
    symbols := [("hd_plugin_module_load", [7]), ("hd_plugin_module_unload", [])] }

/-- A library that lacks `hd_plugin_module_unload`. -/
def scenario_broken_library : GModule :=
  { file_name := "/usr/lib/broken.so"
    symbols := [("hd_plugin_module_load", [7])] }

/-- A world in which `g_module_open` opens the two libraries above and nothing
else. -/
def scenario_g_module_open (file_name : String) : Option GModule :=
  if file_name = "/usr/lib/plugin.so" then some scenario_library
  else if file_name = "/usr/lib/broken.so" then some scenario_broken_library
  else none

/-- A type system in which the type `7` is a `HD_TYPE_PLUGIN_ITEM` (the type
`1`) and the type `8` is not. -/
def scenario_types : TypeSystem :=
  { g_type_is_a := fun type is_a_type => type == is_a_type || (type == 7 && is_a_type == 1)
    HD_TYPE_PLUGIN_ITEM := 1 }

/-! ## `hd-shortcuts.c`: `create_sync_lists` -/

/-- The `while (old && new)` loop of `create_sync_lists` followed by the two
final `g_slist_concat` calls.  `old` and `new` are the sorted lists still to be
walked, `add` and `remove` the lists built so far; the result is
`(*to_add, *to_remove)`. -/
def create_sync_lists_while {α : Type} (cmp_func : α → α → Int) :
    List α → List α → List α → List α → List α × List α
  | [], new, add, remove => (new ++ add, remove)
  | old, [], add, remove => (add, old ++ remove)
  | o :: old, n :: new, add, remove =>
    let c := cmp_func o n
    if c > 0 then
      create_sync_lists_while cmp_func (o :: old) new (n :: add) remove
    else if c < 0 then
      create_sync_lists_while cmp_func old (n :: new) add (o :: remove)
    else
      create_sync_lists_while cmp_func old new add remove
termination_by old new => old.length + new.length

/-- The function `create_sync_lists (old, new, &to_add, &to_remove, cmp_func,
destroy_func)`: both lists are sorted and then walked together.  The result is
the pair `(to_add, to_remove)`.  (`destroy_func` only frees memory.) -/
def create_sync_lists {α : Type} (old new : List α) (cmp_func : α → α → Int) :
    List α × List α :=
  let old := g_slist_sort old cmp_func
  let new := g_slist_sort new cmp_func
  create_sync_lists_while cmp_func old new [] []

/-! ## `hd-shortcuts.c`: the shortcuts and the GConf list -/

/-- The type tags of a `GConfValue`. -/
inductive GConfValueType where
  | GCONF_VALUE_INVALID
  | GCONF_VALUE_STRING
  | GCONF_VALUE_INT
  | GCONF_VALUE_FLOAT
  | GCONF_VALUE_BOOL
  | GCONF_VALUE_SCHEMA
  | GCONF_VALUE_LIST
  | GCONF_VALUE_PAIR
  deriving DecidableEq, Repr

/-- A `GConfValue`.  GConf keeps in a list only elements of the list type, so a
list value is given by its list type: a list of strings by its strings, a list
of integers by its integers, and so on.  The number of a float, the schema and
the members of a pair play no part. -/
inductive GConfValue where
  | string (the_string : String)
  | int (the_int : Int)
  | float
  | bool (the_bool : Bool)
  | schema
  | pair
  | list_of_strings (elements : List String)
  | list_of_ints (elements : List Int)
  | list_of_floats (length : Nat)
  | list_of_bools (elements : List Bool)
  | list_of_schemas (length : Nat)
  deriving DecidableEq, Repr

/-- The field `type` of a `GConfValue`. -/
def GConfValue.type : GConfValue → GConfValueType
  | GConfValue.string _ => GConfValueType.GCONF_VALUE_STRING
  | GConfValue.int _ => GConfValueType.GCONF_VALUE_INT
  | GConfValue.float => GConfValueType.GCONF_VALUE_FLOAT
  | GConfValue.bool _ => GConfValueType.GCONF_VALUE_BOOL
  | GConfValue.schema => GConfValueType.GCONF_VALUE_SCHEMA
  | GConfValue.pair => GConfValueType.GCONF_VALUE_PAIR
  | _ => GConfValueType.GCONF_VALUE_LIST

/-- GConf `gconf_value_get_list_type`, for a value that is a list. -/
def gconf_value_get_list_type : GConfValue → GConfValueType
  | GConfValue.list_of_strings _ => GConfValueType.GCONF_VALUE_STRING
  | GConfValue.list_of_ints _ => GConfValueType.GCONF_VALUE_INT
  | GConfValue.list_of_floats _ => GConfValueType.GCONF_VALUE_FLOAT
  | GConfValue.list_of_bools _ => GConfValueType.GCONF_VALUE_BOOL
  | GConfValue.list_of_schemas _ => GConfValueType.GCONF_VALUE_SCHEMA
  | _ => GConfValueType.GCONF_VALUE_INVALID

/-- GConf `gconf_value_get_list` followed by `gconf_value_get_string` on each
element: the strings of a list of strings. -/
def gconf_value_get_list : GConfValue → List String
  | GConfValue.list_of_strings elements => elements
  | _ => []

/-- The function `is_value_a_string_list`: the value is there, is a list, and
its list type is string. -/
def is_value_a_string_list (value : Option GConfValue) : Bool :=
  match value with
  | none => false
  | some value =>
    value.type == GConfValueType.GCONF_VALUE_LIST &&
      gconf_value_get_list_type value == GConfValueType.GCONF_VALUE_STRING

/-- The function `copy_and_convert_string_list`: a copy of each string is
appended to the result, in the order of the list. -/
def copy_and_convert_string_list (list : List String) : List String :=
  list.foldl (fun result v => result ++ [v]) []

/-- The function `get_shortcuts_list_from_value`. -/
def get_shortcuts_list_from_value (value : Option GConfValue) : List String :=
  if is_value_a_string_list value then
    match value with
    | some value => copy_and_convert_string_list (gconf_value_get_list value)
    | none => []
  else
    []

/-- The function `get_shortcuts_list_from_entry`, the entry given by the value
that `gconf_entry_get_value` yields. -/
def get_shortcuts_list_from_entry (entry : Option GConfValue) : List String :=
  get_shortcuts_list_from_value entry

/-- A shortcut widget: the plugin id it was constructed with and whether it is
shown. -/
structure GtkWidget where
  plugin_id : String
  visible : Bool
  deriving DecidableEq, Repr

/-- The private data of a `HDShortcuts`; `applets` is the hash table from
plugin id to shortcut widget, each id at most once, and `current_list` the
list of ids last read from GConf. -/
structure HDShortcutsPrivate where
  applets : List (String × GtkWidget)
  gconf_key : String
  shortcut_type : GType
  throttled : Bool
  current_list : List String
  deriving DecidableEq, Repr

/-- What the functions of a `HDShortcuts` do outside the private data, in
order; a widget is named by its plugin id. -/
inductive ShortcutsEffect where
  | g_object_new (plugin_id : String)
  | gtk_widget_destroy (plugin_id : String)
  | gtk_widget_show (plugin_id : String)
  | gtk_widget_hide (plugin_id : String)
  | gconf_client_set_list (key : String) (list : List String)
  | gconf_client_suggest_sync
  deriving DecidableEq, Repr

/-- The ids of the hash table `applets`, in the order of
`g_hash_table_iter_next`. -/
def applets_keys (applets : List (String × GtkWidget)) : List String :=
  applets.map Prod.fst

/-- GLib `g_hash_table_lookup` on `applets`. -/
def applets_lookup (applets : List (String × GtkWidget)) (key : String) : Option GtkWidget :=
  match applets with
  | [] => none
  | entry :: rest => if entry.1 = key then some entry.2 else applets_lookup rest key

/-- GLib `g_hash_table_remove` on `applets`: the entry of the key is removed
and its widget destroyed by the value destroy function
`gtk_widget_destroy`. -/
def applets_remove (applets : List (String × GtkWidget)) (key : String) :
    List (String × GtkWidget) × List ShortcutsEffect :=
  if key ∈ applets_keys applets then
    (applets.filter (fun entry => entry.1 != key), [ShortcutsEffect.gtk_widget_destroy key])
  else
    (applets, [])

/-- GLib `g_hash_table_insert` on `applets`: a new key gets an entry; for a
key already there the old widget is destroyed and the new one takes its
place. -/
def applets_insert (applets : List (String × GtkWidget)) (key : String) (widget : GtkWidget) :
    List (String × GtkWidget) × List ShortcutsEffect :=
  if key ∈ applets_keys applets then
    (applets.map (fun entry => if entry.1 = key then (entry.1, widget) else entry),
     [ShortcutsEffect.gtk_widget_destroy key])
  else
    (applets ++ [(key, widget)], [])

/-- The loop of `shortcuts_sync` over `to_remove`. -/
def shortcuts_sync_remove (applets : List (String × GtkWidget)) :
    List String → List (String × GtkWidget) × List ShortcutsEffect
  | [] => (applets, [])
  | s :: to_remove =>
    let removed := applets_remove applets s
    let rest := shortcuts_sync_remove removed.1 to_remove
    (rest.1, removed.2 ++ rest.2)

/-- The loop of `shortcuts_sync` over `to_add`: a shortcut is constructed with
the id, put into `applets`, and hidden when `throttled` is set, shown
otherwise. -/
def shortcuts_sync_add (throttled : Bool) (applets : List (String × GtkWidget)) :
    List String → List (String × GtkWidget) × List ShortcutsEffect
  | [] => (applets, [])
  | s :: to_add =>
    let shortcut : GtkWidget := { plugin_id := s, visible := !throttled }
    let inserted := applets_insert applets s shortcut
    let shown :=
      if throttled then ShortcutsEffect.gtk_widget_hide s else ShortcutsEffect.gtk_widget_show s
    let rest := shortcuts_sync_add throttled inserted.1 to_add
    (rest.1, [ShortcutsEffect.g_object_new s] ++ inserted.2 ++ [shown] ++ rest.2)

/-- The function `shortcuts_sync`: `old` is the list of the ids in `applets`,
`new` a copy of `current_list`; the shortcuts of `to_remove` are removed, those
of `to_add` constructed. -/
def shortcuts_sync (priv : HDShortcutsPrivate) : HDShortcutsPrivate × List ShortcutsEffect :=
  let old := applets_keys priv.applets
  let new := priv.current_list
  let lists := create_sync_lists old new strcmp
  let removed := shortcuts_sync_remove priv.applets lists.2
  let added := shortcuts_sync_add priv.throttled removed.1 lists.1
  ({ priv with applets := added.1 }, removed.2 ++ added.2)

/-- The function `shortcuts_notify`, the handler of a change of the GConf key:
the list of ids is read from the entry and the shortcuts are synchronised. -/
def shortcuts_notify (priv : HDShortcutsPrivate) (entry : Option GConfValue) :
    HDShortcutsPrivate × List ShortcutsEffect :=
  shortcuts_sync { priv with current_list := get_shortcuts_list_from_entry entry }

/-- The list after `g_slist_find_custom (list, plugin_id, strcmp)` and
`g_slist_delete_link` of the link found: the first id equal to `plugin_id` is
taken out. -/
def g_slist_delete_found : List String → String → List String
  | [], _ => []
  | data :: list, plugin_id =>
    if strcmp data plugin_id = 0 then list
    else data :: g_slist_delete_found list plugin_id

/-- GTK `gtk_widget_hide` on the shortcut registered under `plugin_id`. -/
def applets_hide (applets : List (String × GtkWidget)) (plugin_id : String) :
    List (String × GtkWidget) :=
  applets.map (fun entry =>
    if entry.1 = plugin_id then (entry.1, { entry.2 with visible := false }) else entry)

/-- The handler `delete_event_cb` of the `delete-event` of the shortcut
registered under `plugin_id`: the id is taken out of `current_list`, the list
is stored to GConf, and the shortcut is hidden (not destroyed). -/
def delete_event_cb (priv : HDShortcutsPrivate) (plugin_id : String) :
    HDShortcutsPrivate × List ShortcutsEffect :=
  let current_list := g_slist_delete_found priv.current_list plugin_id
  ({ priv with current_list := current_list, applets := applets_hide priv.applets plugin_id },
   [ShortcutsEffect.gconf_client_set_list priv.gconf_key current_list,
    ShortcutsEffect.gconf_client_suggest_sync,
    ShortcutsEffect.gtk_widget_hide plugin_id])

/-- Shortcuts in which `a` and `d` are active and the list of ids read from
GConf is `b, a, c`. -/
def scenario_shortcuts : HDShortcutsPrivate :=
  { applets := [("a", { plugin_id := "a", visible := true }),
                ("d", { plugin_id := "d", visible := true })]
    gconf_key := "/apps/osso/hildon-home/task-shortcuts"
    shortcut_type := 9
    throttled := false
    current_list := ["b", "a", "c"] }

/-! ## `hd-shortcuts.c`: bookmark shortcuts -/

/-- The characters kept in an id. -/
def ID_VALID_CHARS : String :=
  "abcdefghijklmnopqrstuvwxyzABCDEFGHIJKLMNOPQRSTUVWXYZ0123456789-_"

/-- The character that replaces the others. -/
def ID_SUBSTITUTOR : Char := '_'

/-- The number of bytes of the URL that go into an id. -/
def MAX_URL_LENGTH : Nat := 150

/-- The bytes of the C string (`gchar *`) of a string: its UTF-8 encoding. -/
def c_string (s : String) : List Nat :=
  s.data.flatMap (fun c => (String.utf8EncodeChar c).map UInt8.toNat)

/-- The string of a sequence of ASCII bytes. -/
def ascii_string (bytes : List Nat) : String :=
  ⟨bytes.map Char.ofNat⟩

/-- GLib `g_strndup`: the first `n` bytes of `str`. -/
def g_strndup (str : List Nat) (n : Nat) : List Nat :=
  str.take n

/-- GLib `g_strcanon`: each byte of `string` that is not in `valid_chars` is
replaced by `substitutor`. -/
def g_strcanon (string : List Nat) (valid_chars : String) (substitutor : Char) : List Nat :=
  string.map (fun c => if c ∈ c_string valid_chars then c else substitutor.toNat)

/-- GLib `g_slist_find_custom`: the first element on which `func (element, data)`
is zero. -/
def g_slist_find_custom (list : List String) (data : String) (func : String → String → Int) :
    Option String :=
  list.find? (fun element => func element data == 0)

/-- The `do ... while` loop of `hd_shortcuts_add_bookmark_shortcut`, from the
value `count` of the `guint` counter, run for at most `fuel` rounds: a round
prints the id `"%s-%u"` of `canon_url` and the counter, increments the counter
(a `guint`, so modulo `2 ^ 32`), and the loop goes on while the id is found in
the list.  The result is the id with which the loop ends, `none` when it has
not ended after `fuel` rounds. -/
def hd_shortcuts_add_bookmark_shortcut_do_while (canon_url : String) (list : List String) :
    Nat → Nat → Option String
  | 0, _ => none
  | fuel + 1, count =>
    let id := canon_url ++ "-" ++ toString count
    let count := (count + 1) % 2 ^ 32
    if (g_slist_find_custom list id strcmp).isSome then
      hd_shortcuts_add_bookmark_shortcut_do_while canon_url list fuel count
    else
      some id

/-- The part of `hd_shortcuts_add_bookmark_shortcut` that creates the id of
the bookmark from the URL and the stored list, the loop run for at most `fuel`
rounds. -/
def hd_shortcuts_add_bookmark_shortcut_id (fuel : Nat) (list : List String) (url : String) :
    Option String :=
  let canon_url := g_strndup (c_string url) MAX_URL_LENGTH
  let canon_url := g_strcanon canon_url ID_VALID_CHARS ID_SUBSTITUTOR
  hd_shortcuts_add_bookmark_shortcut_do_while (ascii_string canon_url) list fuel 0

/-- The value of a decimal numeral. -/
def decimal_value (digits : List Char) : Nat :=
  digits.foldl (fun value c => value * 10 + (c.toNat - 48)) 0

/-- The list of all the ids that the loop can print for `canon_url`. -/
def scenario_all_ids (canon_url : String) : List String :=
  (List.range (2 ^ 32)).map (fun count => canon_url ++ "-" ++ toString count)

/-- What the merge walk needs of a comparison function: it is zero exactly on
equal keys, its sign flips when the arguments are swapped, and "not positive"
is transitive. -/
structure IsTotalCmp {α : Type} (cmp : α → α → Int) : Prop where
  eq_zero : ∀ a b, cmp a b = 0 ↔ a = b
  swap : ∀ a b, cmp b a = - cmp a b
  trans : ∀ a b c, cmp a b ≤ 0 → cmp b c ≤ 0 → cmp a c ≤ 0

/-! ## Lemmas on `strcmp` -/

theorem strcmp_chars_eq_zero : ∀ a b : List Char, strcmp_chars a b = 0 ↔ a = b
  | [], [] => by simp [strcmp_chars]
  | [], _ :: _ => by simp [strcmp_chars]
  | _ :: _, [] => by simp [strcmp_chars]
  | a :: as, b :: bs => by
    have ih := strcmp_chars_eq_zero as bs
    unfold strcmp_chars
    by_cases h1 : a.toNat < b.toNat
    · have : a ≠ b := fun h => by subst h; exact lt_irrefl _ h1
      simp [h1, this]
    · by_cases h2 : b.toNat < a.toNat
      · have : a ≠ b := fun h => by subst h; exact lt_irrefl _ h2
        simp [h1, h2, this]
      · have hab : a = b := by
          apply Char.ext
          apply UInt32.ext
          exact le_antisymm (not_lt.mp h2) (not_lt.mp h1)
        simp [h1, h2, hab, ih]

theorem strcmp_chars_swap : ∀ a b : List Char, strcmp_chars b a = - strcmp_chars a b
  | [], [] => by simp [strcmp_chars]
  | [], _ :: _ => by simp [strcmp_chars]
  | _ :: _, [] => by simp [strcmp_chars]
  | a :: as, b :: bs => by
    have ih := strcmp_chars_swap as bs
    rw [strcmp_chars, strcmp_chars]
    by_cases h1 : a.toNat < b.toNat
    · have h2 : ¬ b.toNat < a.toNat := not_lt.mpr (le_of_lt h1)
      simp [h1, h2]
    · by_cases h2 : b.toNat < a.toNat
      · simp [h1, h2]
      · simp [h1, h2, ih]

theorem strcmp_chars_trans : ∀ a b c : List Char,
    strcmp_chars a b ≤ 0 → strcmp_chars b c ≤ 0 → strcmp_chars a c ≤ 0
  | [], _, [] => by simp [strcmp_chars]
  | [], _, _ :: _ => by simp [strcmp_chars]
  | _ :: _, [], _ => by simp [strcmp_chars]
  | _ :: _, _ :: _, [] => by simp [strcmp_chars]
  | a :: as, b :: bs, c :: cs => by
    have ih := strcmp_chars_trans as bs cs
    rw [strcmp_chars, strcmp_chars, strcmp_chars]
    intro hab hbc
    by_cases h1 : a.toNat < b.toNat
    · by_cases h2 : b.toNat < c.toNat
      · have : a.toNat < c.toNat := lt_trans h1 h2
        simp [this]
      · by_cases h3 : c.toNat < b.toNat
        · simp [h2, h3] at hbc
        · have hbc' : b.toNat = c.toNat := le_antisymm (not_lt.mp h3) (not_lt.mp h2)
          have : a.toNat < c.toNat := hbc' ▸ h1
          simp [this]
    · by_cases h1' : b.toNat < a.toNat
      · simp [h1, h1'] at hab
      · have hab' : a.toNat = b.toNat := le_antisymm (not_lt.mp h1') (not_lt.mp h1)
        simp only [h1, h1', if_false] at hab
        by_cases h2 : b.toNat < c.toNat
        · have : a.toNat < c.toNat := hab' ▸ h2
          simp [this]
        · by_cases h3 : c.toNat < b.toNat
          · simp [h2, h3] at hbc
          · simp only [h2, h3, if_false] at hbc
            have e1 : ¬ a.toNat < c.toNat := hab' ▸ h2
            have e2 : ¬ c.toNat < a.toNat := hab' ▸ h3
            simp only [e1, e2, if_false]
            exact ih hab hbc

theorem strcmp_isTotalCmp : IsTotalCmp strcmp where
  eq_zero a b := by
    unfold strcmp
    rw [strcmp_chars_eq_zero]
    constructor
    · intro h; exact String.ext h
    · intro h; rw [h]
  swap a b := strcmp_chars_swap a.data b.data
  trans a b c := strcmp_chars_trans a.data b.data c.data

/-! ## Lemmas on `g_slist_sort` and the merge walk -/

theorem g_slist_sort_perm {α : Type} (l : List α) (cmp : α → α → Int) :
    (g_slist_sort l cmp).Perm l :=
  List.perm_insertionSort _ l

theorem g_slist_sort_sorted {α : Type} {cmp : α → α → Int} (h : IsTotalCmp cmp)
    (l : List α) : (g_slist_sort l cmp).Sorted (fun a b => cmp a b ≤ 0) := by
  haveI : IsTotal α (fun a b => cmp a b ≤ 0) := ⟨fun a b => by
    have := h.swap a b
    by_cases hab : cmp a b ≤ 0
    · exact Or.inl hab
    · right; show cmp b a ≤ 0; omega⟩
  haveI : IsTrans α (fun a b => cmp a b ≤ 0) := ⟨fun a b c => h.trans a b c⟩
  exact List.sorted_insertionSort _ l

theorem g_slist_sort_eq_of_perm {α : Type} {cmp : α → α → Int} (h : IsTotalCmp cmp)
    {l₁ l₂ : List α} (hp : l₁.Perm l₂) : g_slist_sort l₁ cmp = g_slist_sort l₂ cmp := by
  haveI : IsAntisymm α (fun a b => cmp a b ≤ 0) := ⟨fun a b hab hba => by
    have := h.swap a b
    exact (h.eq_zero a b).1 (by omega)⟩
  exact List.eq_of_perm_of_sorted
    (((g_slist_sort_perm l₁ cmp).trans hp).trans (g_slist_sort_perm l₂ cmp).symm)
    (g_slist_sort_sorted h l₁) (g_slist_sort_sorted h l₂)

/-- A sorted list without duplicates is strictly increasing. -/
theorem g_slist_sort_strict {α : Type} {cmp : α → α → Int} (h : IsTotalCmp cmp)
    {l : List α} (hn : l.Nodup) :
    (g_slist_sort l cmp).Pairwise (fun a b => cmp a b < 0) := by
  have hs := g_slist_sort_sorted h l
  have hn2 : (g_slist_sort l cmp).Nodup := (g_slist_sort_perm l cmp).nodup_iff.2 hn
  have := List.Pairwise.and hs hn2
  refine this.imp ?_
  intro a b hab
  have hne : cmp a b ≠ 0 := fun h0 => hab.2 ((h.eq_zero a b).1 h0)
  exact lt_of_le_of_ne hab.1 hne

/-- On strictly increasing lists the merge walk adds to `add` the keys of `new`
that are not in `old`, and to `remove` the keys of `old` that are not in
`new`. -/
theorem create_sync_lists_while_mem {α : Type} {cmp : α → α → Int} (h : IsTotalCmp cmp) :
    ∀ (old new add remove : List α),
      old.Pairwise (fun a b => cmp a b < 0) → new.Pairwise (fun a b => cmp a b < 0) →
      (∀ x, x ∈ (create_sync_lists_while cmp old new add remove).1 ↔
        x ∈ add ∨ (x ∈ new ∧ x ∉ old)) ∧
      (∀ x, x ∈ (create_sync_lists_while cmp old new add remove).2 ↔
        x ∈ remove ∨ (x ∈ old ∧ x ∉ new)) := by
  intro old new add remove
  induction old, new, add, remove using create_sync_lists_while.induct cmp with
  | case1 new add remove =>
    intro _ _
    simp only [create_sync_lists_while]
    constructor
    · intro x; simp [or_comm]
    · intro x; simp
  | case2 old add remove hne =>
    intro _ _
    rw [create_sync_lists_while]
    · constructor
      · intro x; simp
      · intro x; simp [or_comm]
    · exact hne
  | case3 o old n new add remove c hc ih =>
    intro ho hn
    rw [create_sync_lists_while]
    simp only [show cmp o n > 0 from hc, if_true]
    have hn2 := List.pairwise_cons.1 hn
    have ih2 := ih ho hn2.2
    have hno : n ∉ o :: old := by
      intro hmem
      rcases List.mem_cons.1 hmem with e | e
      · have := (h.eq_zero o n).2 e.symm
        have hc2 : cmp o n > 0 := hc
        omega
      · have h1 := (List.pairwise_cons.1 ho).1 n e
        have hc2 : cmp o n > 0 := hc
        omega
    have hnn : n ∉ new := by
      intro hmem
      have h1 := hn2.1 n hmem
      have := (h.eq_zero n n).2 rfl
      omega
    constructor
    · intro x
      rw [ih2.1 x]
      simp only [List.mem_cons]
      constructor
      · rintro ((e | e) | ⟨e1, e2⟩)
        · right; subst e; exact ⟨Or.inl rfl, by simpa using hno⟩
        · exact Or.inl e
        · exact Or.inr ⟨Or.inr e1, by simpa using e2⟩
      · rintro (e | ⟨e1 | e1, e2⟩)
        · exact Or.inl (Or.inr e)
        · exact Or.inl (Or.inl e1)
        · exact Or.inr ⟨e1, by simpa using e2⟩
    · intro x
      rw [ih2.2 x]
      simp only [List.mem_cons]
      constructor
      · rintro (e | ⟨e1, e2⟩)
        · exact Or.inl e
        · refine Or.inr ⟨e1, ?_⟩
          rintro (e | e)
          · subst e; exact hno (List.mem_cons.2 e1)
          · exact e2 e
      · rintro (e | ⟨e1, e2⟩)
        · exact Or.inl e
        · exact Or.inr ⟨e1, fun e => e2 (Or.inr e)⟩
  | case4 o old n new add remove c hc1 hc2 ih =>
    intro ho hn
    rw [create_sync_lists_while]
    simp only [show ¬ cmp o n > 0 from hc1, show cmp o n < 0 from hc2, if_true, if_false]
    have ho2 := List.pairwise_cons.1 ho
    have ih2 := ih ho2.2 hn
    have hon : o ∉ n :: new := by
      intro hmem
      have hc3 : cmp o n < 0 := hc2
      rcases List.mem_cons.1 hmem with e | e
      · have := (h.eq_zero o n).2 e
        omega
      · have h1 := (List.pairwise_cons.1 hn).1 o e
        have := h.swap o n
        omega
    have hoo : o ∉ old := by
      intro hmem
      have h1 := ho2.1 o hmem
      have := (h.eq_zero o o).2 rfl
      omega
    constructor
    · intro x
      rw [ih2.1 x]
      simp only [List.mem_cons]
      constructor
      · rintro (e | ⟨e1, e2⟩)
        · exact Or.inl e
        · refine Or.inr ⟨e1, ?_⟩
          rintro (e | e)
          · subst e; exact hon (List.mem_cons.2 e1)
          · exact e2 e
      · rintro (e | ⟨e1, e2⟩)
        · exact Or.inl e
        · exact Or.inr ⟨e1, fun e => e2 (Or.inr e)⟩
    · intro x
      rw [ih2.2 x]
      simp only [List.mem_cons]
      constructor
      · rintro ((e | e) | ⟨e1, e2⟩)
        · right; subst e; exact ⟨Or.inl rfl, by simpa using hon⟩
        · exact Or.inl e
        · exact Or.inr ⟨Or.inr e1, by simpa using e2⟩
      · rintro (e | ⟨e1 | e1, e2⟩)
        · exact Or.inl (Or.inr e)
        · exact Or.inl (Or.inl e1)
        · exact Or.inr ⟨e1, by simpa using e2⟩
  | case5 o old n new add remove c hc1 hc2 ih =>
    intro ho hn
    rw [create_sync_lists_while]
    simp only [show ¬ cmp o n > 0 from hc1, show ¬ cmp o n < 0 from hc2, if_false]
    have ho2 := List.pairwise_cons.1 ho
    have hn2 := List.pairwise_cons.1 hn
    have ih2 := ih ho2.2 hn2.2
    have hc3 : ¬ cmp o n > 0 := hc1
    have hc4 : ¬ cmp o n < 0 := hc2
    have heq : o = n := (h.eq_zero o n).1 (by omega)
    subst heq
    have hoo : o ∉ old := by
      intro hmem
      have h1 := ho2.1 o hmem
      have := (h.eq_zero o o).2 rfl
      omega
    have hnn : o ∉ new := by
      intro hmem
      have h1 := hn2.1 o hmem
      have := (h.eq_zero o o).2 rfl
      omega
    constructor
    · intro x
      rw [ih2.1 x]
      simp only [List.mem_cons]
      constructor
      · rintro (e | ⟨e1, e2⟩)
        · exact Or.inl e
        · refine Or.inr ⟨Or.inr e1, ?_⟩
          rintro (e | e)
          · subst e; exact hnn e1
          · exact e2 e
      · rintro (e | ⟨e1 | e1, e2⟩)
        · exact Or.inl e
        · exact absurd (Or.inl e1) e2
        · exact Or.inr ⟨e1, fun e => e2 (Or.inr e)⟩
    · intro x
      rw [ih2.2 x]
      simp only [List.mem_cons]
      constructor
      · rintro (e | ⟨e1, e2⟩)
        · exact Or.inl e
        · refine Or.inr ⟨Or.inr e1, ?_⟩
          rintro (e | e)
          · subst e; exact hoo e1
          · exact e2 e
      · rintro (e | ⟨e1 | e1, e2⟩)
        · exact Or.inl e
        · exact absurd (Or.inl e1) e2
        · exact Or.inr ⟨e1, fun e => e2 (Or.inr e)⟩

/-- For duplicate-free inputs and a total comparison, `to_add` holds exactly
the keys of `new` missing from `old` and `to_remove` exactly the keys of `old`
missing from `new`. -/
theorem create_sync_lists_mem {α : Type} {cmp : α → α → Int} (h : IsTotalCmp cmp)
    (old new : List α) (ho : old.Nodup) (hn : new.Nodup) :
    (∀ x, x ∈ (create_sync_lists old new cmp).1 ↔ (x ∈ new ∧ x ∉ old)) ∧
    (∀ x, x ∈ (create_sync_lists old new cmp).2 ↔ (x ∈ old ∧ x ∉ new)) := by
  have hw := create_sync_lists_while_mem h (g_slist_sort old cmp) (g_slist_sort new cmp) [] []
    (g_slist_sort_strict h ho) (g_slist_sort_strict h hn)
  have mo : ∀ x, x ∈ g_slist_sort old cmp ↔ x ∈ old := fun x => (g_slist_sort_perm old cmp).mem_iff
  have mn : ∀ x, x ∈ g_slist_sort new cmp ↔ x ∈ new := fun x => (g_slist_sort_perm new cmp).mem_iff
  constructor
  · intro x
    have := hw.1 x
    simp only [List.not_mem_nil, false_or, mo, mn] at this
    exact this
  · intro x
    have := hw.2 x
    simp only [List.not_mem_nil, false_or, mo, mn] at this
    exact this

/-! ## Lemmas on the GLib string helpers -/

/-- The test `g_str_has_suffix` holds exactly of the strings that end in the
suffix. -/
theorem g_str_has_suffix_iff (str suffix : String) :
    g_str_has_suffix str suffix = true ↔ ∃ front : List Char, str.data = front ++ suffix.data := by
  unfold g_str_has_suffix
  by_cases hlen : str.data.length < suffix.data.length
  · simp only [hlen, if_true, Bool.false_eq_true, false_iff]
    rintro ⟨front, h⟩
    have := congrArg List.length h
    simp only [List.length_append] at this
    omega
  · simp only [hlen, if_false, beq_iff_eq, strcmp_chars_eq_zero]
    constructor
    · intro h
      have e := (List.take_append_drop (str.data.length - suffix.data.length) str.data).symm
      rw [h] at e
      exact ⟨_, e⟩
    · rintro ⟨front, h⟩
      rw [h]
      simp

theorem dropWhile_sep_of_head {l : List Char} (h : ∀ c ∈ l.head?, c ≠ '/') :
    l.dropWhile (fun c => c == '/') = l ∧ l.takeWhile (fun c => c == '/') = [] := by
  cases l with
  | nil => simp
  | cons a t =>
    have hne : a ≠ '/' := h a (by simp)
    have hb : (a == '/') = false := by simpa using hne
    simp [List.dropWhile, List.takeWhile, hb]

theorem strip_trailing_sep_eq {l : List Char} (h : ∀ c ∈ l.getLast?, c ≠ '/') :
    (l.reverse.dropWhile (fun c => c == '/')).reverse = l := by
  have hh : ∀ c ∈ l.reverse.head?, c ≠ '/' := by
    rw [List.head?_reverse]; exact h
  rw [(dropWhile_sep_of_head hh).1, List.reverse_reverse]

theorem dropWhile_sep_last {l : List Char} (hne : l ≠ [])
    (h : ∀ c ∈ l.getLast?, c ≠ '/') :
    l.dropWhile (fun c => c == '/') ≠ [] ∧
    ∀ c ∈ (l.dropWhile (fun c => c == '/')).getLast?, c ≠ '/' := by
  have hsplit := List.takeWhile_append_dropWhile (fun c => c == '/') l
  have hd : l.dropWhile (fun c => c == '/') ≠ [] := by
    intro e
    rw [e, List.append_nil] at hsplit
    have hlast : l.getLast hne ∈ l.takeWhile (fun c => c == '/') := by
      rw [hsplit]; exact List.getLast_mem hne
    have := List.mem_takeWhile_imp hlast
    have h2 := h (l.getLast hne) (by rw [List.getLast?_eq_getLast _ hne]; rfl)
    simp at this
    exact h2 this
  refine ⟨hd, ?_⟩
  have : l.getLast? = (l.dropWhile (fun c => c == '/')).getLast? := by
    conv_lhs => rw [← hsplit]
    rw [List.getLast?_append_of_ne_nil _ hd]
  rw [← this]
  exact h

/-- For a directory that is not empty and does not end in a separator, and a
name that is not empty and neither starts nor ends with a separator,
`g_build_filename (dir, name)` is `dir/name`. -/
theorem g_build_filename_dir_name (dir name : String)
    (hdir : dir.data ≠ []) (hdirlast : ∀ c ∈ dir.data.getLast?, c ≠ '/')
    (hname : name.data ≠ []) (hnamehead : ∀ c ∈ name.data.head?, c ≠ '/')
    (hnamelast : ∀ c ∈ name.data.getLast?, c ≠ '/') :
    g_build_filename [dir, name] = ⟨dir.data ++ ['/'] ++ name.data⟩ := by
  obtain ⟨hd1, hd2⟩ := dropWhile_sep_last hdir hdirlast
  have hd3 := strip_trailing_sep_eq hd2
  obtain ⟨hn1, hn2⟩ := dropWhile_sep_of_head hnamehead
  have hn3 := strip_trailing_sep_eq hnamelast
  have hsplit := List.takeWhile_append_dropWhile (fun c => c == '/') dir.data
  simp only [g_build_filename, List.map, List.foldl, g_build_path_step, hd3, hn1, hn2, hn3,
    List.isEmpty_eq_true, hdir, hname, hd1, if_false, List.drop_length, List.nil_append,
    Bool.false_eq_true, if_true, List.append_nil, hsplit, List.append_assoc, Option.getD_some]

/-! ## Lemmas on the availability table -/

theorem mem_g_hash_table_insert (t : GHashTable) (key x : String) :
    x ∈ g_hash_table_insert t key ↔ (x ∈ t ∨ x = key) := by
  unfold g_hash_table_insert
  by_cases h : key ∈ t
  · simp only [h, if_true]
    constructor
    · exact Or.inl
    · rintro (h1 | h1)
      · exact h1
      · rw [h1]; exact h
  · simp [h]

theorem mem_g_hash_table_remove (t : GHashTable) (key x : String) :
    x ∈ g_hash_table_remove t key ↔ (x ∈ t ∧ x ≠ key) := by
  simp [g_hash_table_remove]

theorem g_hash_table_remove_absent (t : GHashTable) (key : String) (h : key ∉ t) :
    g_hash_table_remove t key = t := by
  unfold g_hash_table_remove
  apply List.filter_eq_self.2
  intro a ha
  have : a ≠ key := fun e => h (e ▸ ha)
  simpa using this

theorem mem_read_plugin_dir (dir : String) (names : List String) :
    ∀ (t : GHashTable) (x : String),
      x ∈ read_plugin_dir dir names t ↔
        (x ∈ t ∨ ∃ name ∈ names, g_str_has_suffix name ".desktop" = true ∧
          x = g_build_filename [dir, name]) := by
  induction names with
  | nil => intro t x; simp [read_plugin_dir]
  | cons n ns ih =>
    intro t x
    have step : read_plugin_dir dir (n :: ns) t =
        read_plugin_dir dir ns
          (if !g_str_has_suffix n ".desktop" then t
           else g_hash_table_insert t (g_build_filename [dir, n])) := rfl
    rw [step, ih]
    by_cases hs : g_str_has_suffix n ".desktop" = true
    · simp only [hs, Bool.not_true, Bool.false_eq_true, if_false, mem_g_hash_table_insert,
        List.mem_cons, exists_eq_or_imp, true_and]
      tauto
    · simp only [Bool.not_eq_true] at hs
      simp only [hs, Bool.not_false, if_true, List.mem_cons, exists_eq_or_imp,
        Bool.false_eq_true, false_and, false_or]

theorem mem_scan_plugin_dirs (w : World) (dirs : List String) :
    ∀ (t : GHashTable) (x : String),
      x ∈ (scan_plugin_dirs w dirs t).1 ↔
        (x ∈ t ∨ ∃ dir ∈ dirs, ∃ names, w.g_dir_open dir = some names ∧
          ∃ name ∈ names, g_str_has_suffix name ".desktop" = true ∧
            x = g_build_filename [dir, name]) := by
  induction dirs with
  | nil => intro t x; simp [scan_plugin_dirs]
  | cons d ds ih =>
    intro t x
    unfold scan_plugin_dirs
    cases hd : w.g_dir_open d with
    | none =>
      simp only [ih, List.mem_cons, exists_eq_or_imp, hd, false_and, exists_false, false_or,
        reduceCtorEq]
    | some names =>
      simp only [ih, mem_read_plugin_dir, List.mem_cons, exists_eq_or_imp, hd, Option.some.injEq,
        exists_eq_left', or_assoc]

/-- The scan of the plugin directories only creates monitors and opens
directories. -/
theorem scan_plugin_dirs_effects (w : World) (dirs : List String) :
    ∀ (t : GHashTable) (e : Effect), e ∈ (scan_plugin_dirs w dirs t).2 →
      ∃ dir, e = Effect.g_file_monitor_directory dir ∨ e = Effect.g_dir_open dir := by
  induction dirs with
  | nil => intro t e h; simp [scan_plugin_dirs] at h
  | cons d ds ih =>
    intro t e h
    unfold scan_plugin_dirs at h
    cases hd : w.g_dir_open d with
    | none =>
      simp only [hd, List.cons_append, List.nil_append, List.mem_cons] at h
      rcases h with h | h | h
      · exact ⟨d, Or.inl h⟩
      · exact ⟨d, Or.inr h⟩
      · exact ih _ e h
    | some names =>
      simp only [hd, List.cons_append, List.nil_append, List.mem_cons] at h
      rcases h with h | h | h
      · exact ⟨d, Or.inl h⟩
      · exact ⟨d, Or.inr h⟩
      · exact ih _ e h

/-- No run of the configuration-loaded handler emits a plugin-module
signal: it cancels monitors, creates monitors, opens directories, notifies
the key file property and emits `items-configuration-loaded`. -/
theorem configuration_loaded_effects (w : World) (priv : HDPluginConfigurationPrivate)
    (keyfile : GKeyFile) :
    ∀ e ∈ (hd_plugin_configuration_configuration_loaded w priv keyfile).2,
      ∀ desktop_file,
        e ≠ Effect.g_signal_emit (PluginSignal.PLUGIN_MODULE_ADDED desktop_file) ∧
        e ≠ Effect.g_signal_emit (PluginSignal.PLUGIN_MODULE_REMOVED desktop_file) ∧
        e ≠ Effect.g_signal_emit (PluginSignal.PLUGIN_MODULE_UPDATED desktop_file) := by
  intro e he desktop_file
  have hcancel : ∀ (l : List (String × String)),
      e ∈ l.map (fun entry : String × String => Effect.g_file_monitor_cancel entry.2) →
      ∃ dir, e = Effect.g_file_monitor_cancel dir := by
    intro l h
    rcases List.mem_map.1 h with ⟨a, _, ha⟩
    exact ⟨a.2, ha.symm⟩
  have hcancelled : e ∈ (match priv.plugin_dirs with
      | some dirs => (dirs.zip priv.plugin_dir_monitors).map
          (fun entry : String × String => Effect.g_file_monitor_cancel entry.2)
      | none => []) → ∃ dir, e = Effect.g_file_monitor_cancel dir := by
    cases priv.plugin_dirs with
    | none => intro h; simp at h
    | some dirs => exact hcancel _
  have key : (∃ dir, e = Effect.g_file_monitor_cancel dir) ∨
      (∃ dir, e = Effect.g_file_monitor_directory dir ∨ e = Effect.g_dir_open dir) ∨
      (∃ prop, e = Effect.g_object_notify prop) ∨
      (∃ kf, e = Effect.g_signal_emit (PluginSignal.ITEMS_CONFIGURATION_LOADED kf)) := by
    simp only [hd_plugin_configuration_configuration_loaded] at he
    split at he
    · exact Or.inl (hcancelled he)
    · split at he
      · exact Or.inl (hcancelled he)
      · simp only [List.mem_append, hd_plugin_configuration_load_plugin_configuration,
          List.mem_cons, List.mem_singleton, List.not_mem_nil, or_false] at he
        rcases he with (he | he) | he | he
        · exact Or.inl (hcancelled he)
        · exact Or.inr (Or.inl (scan_plugin_dirs_effects _ _ _ _ he))
        · exact Or.inr (Or.inr (Or.inl ⟨_, he⟩))
        · exact Or.inr (Or.inr (Or.inr ⟨_, he⟩))
  rcases key with ⟨d, h⟩ | ⟨d, h | h⟩ | ⟨d, h⟩ | ⟨d, h⟩ <;> subst h <;> simp

/-! ## Lemmas on the startup flag -/

theorem load_plugin_configuration_startup (w : World) (priv : HDPluginConfigurationPrivate) :
    (hd_plugin_configuration_load_plugin_configuration w priv).1.startup = priv.startup := rfl

theorem configuration_loaded_startup (w : World) (priv : HDPluginConfigurationPrivate)
    (keyfile : GKeyFile) :
    (hd_plugin_configuration_configuration_loaded w priv keyfile).1.startup = priv.startup := by
  obtain ⟨config_file, items_config_file, items_key_file, plugin_dirs, plugin_dir_files,
    plugin_dir_monitors, available_plugins, startup⟩ := priv
  simp only [hd_plugin_configuration_configuration_loaded]
  split
  · cases plugin_dirs <;> rfl
  · split
    · cases plugin_dirs <;> rfl
    · simp only [hd_plugin_configuration_load_plugin_configuration]
      split <;> cases plugin_dirs <;> rfl

theorem load_configuration_startup (w : World) (priv : HDPluginConfigurationPrivate) :
    (hd_plugin_configuration_load_configuration w priv).1.startup = priv.startup := by
  unfold hd_plugin_configuration_load_configuration
  split
  · rfl
  · exact configuration_loaded_startup w priv _

theorem plugin_dir_changed_startup (priv : HDPluginConfigurationPrivate) (path : String)
    (event_type : GFileMonitorEvent) :
    (hd_plugin_configuration_plugin_dir_changed priv path event_type).1.startup =
      priv.startup := by
  unfold hd_plugin_configuration_plugin_dir_changed
  split
  · rfl
  · split
    · split <;> rfl
    · split <;> rfl

/-- A call other than `hd_plugin_configuration_run` leaves the startup flag as
it is; `hd_plugin_configuration_run` clears it. -/
theorem plugin_configuration_step_startup (priv : HDPluginConfigurationPrivate)
    (call : World × PluginConfigurationCall) :
    (plugin_configuration_step priv call).startup =
      (if call.2 = PluginConfigurationCall.run then false else priv.startup) := by
  obtain ⟨w, c⟩ := call
  cases c with
  | run => rfl
  | config_file_changed =>
    simp only [plugin_configuration_step, reduceCtorEq, if_false]
    exact load_configuration_startup w priv
  | items_config_file_changed =>
    simp only [plugin_configuration_step, reduceCtorEq, if_false]
    split
    · exact load_plugin_configuration_startup w priv
    · rfl
  | plugin_dir_changed path event_type =>
    simp only [plugin_configuration_step, reduceCtorEq, if_false]
    exact plugin_dir_changed_startup priv path event_type

/-! ## Lemmas on entry points -/

/-- A run of an entry point changes nothing but `gtypes`, and all it does
outside the module is to store the module path in types. -/
theorem call_entry_point_frame (entry : EntryPoint) :
    ∀ priv : HDPluginModulePrivate,
      (call_entry_point priv entry).1.path = priv.path ∧
      (call_entry_point priv entry).1.library = priv.library ∧
      (call_entry_point priv entry).1.load = priv.load ∧
      (call_entry_point priv entry).1.unload = priv.unload ∧
      ∀ e ∈ (call_entry_point priv entry).2,
        ∃ type dl_filename, e = ModuleEffect.g_type_set_qdata type dl_filename := by
  induction entry with
  | nil => intro priv; simp [call_entry_point]
  | cons t ts ih =>
    intro priv
    have hadd : (hd_plugin_module_add_type priv t).1.path = priv.path ∧
        (hd_plugin_module_add_type priv t).1.library = priv.library ∧
        (hd_plugin_module_add_type priv t).1.load = priv.load ∧
        (hd_plugin_module_add_type priv t).1.unload = priv.unload ∧
        ∀ e ∈ (hd_plugin_module_add_type priv t).2,
          ∃ type dl_filename, e = ModuleEffect.g_type_set_qdata type dl_filename := by
      unfold hd_plugin_module_add_type
      split
      · simp
      · simp
    obtain ⟨h1, h2, h3, h4, h5⟩ := ih (hd_plugin_module_add_type priv t).1
    obtain ⟨a1, a2, a3, a4, a5⟩ := hadd
    simp only [call_entry_point]
    refine ⟨h1.trans a1, h2.trans a2, h3.trans a3, h4.trans a4, ?_⟩
    intro e he
    rcases List.mem_append.1 he with he | he
    · exact a5 e he
    · exact h5 e he

/-- With a type registered, a run of an entry point changes nothing. -/
theorem call_entry_point_registered (entry : EntryPoint) (priv : HDPluginModulePrivate)
    (h : priv.gtypes ≠ []) : call_entry_point priv entry = (priv, []) := by
  induction entry with
  | nil => rfl
  | cons t ts ih =>
    have hadd : hd_plugin_module_add_type priv t = (priv, []) := by
      simp [hd_plugin_module_add_type, h]
    simp only [call_entry_point, hadd, ih, List.append_nil]

theorem call_entry_point_count (entry : EntryPoint) (priv : HDPluginModulePrivate) :
    (call_entry_point priv entry).2.count ModuleEffect.call_load = 0 ∧
    (call_entry_point priv entry).2.count ModuleEffect.call_unload = 0 ∧
    ∀ library, (call_entry_point priv entry).2.count (ModuleEffect.g_module_close library) = 0 := by
  have h := (call_entry_point_frame entry priv).2.2.2.2
  refine ⟨?_, ?_, fun library => ?_⟩
  · apply List.count_eq_zero.2
    intro hm
    obtain ⟨t, d, e⟩ := h _ hm
    cases e
  · apply List.count_eq_zero.2
    intro hm
    obtain ⟨t, d, e⟩ := h _ hm
    cases e
  · apply List.count_eq_zero.2
    intro hm
    obtain ⟨t, d, e⟩ := h _ hm
    cases e

/-- On sorted lists the merge walk adds to `add` each key as often as it
occurs more in `new` than in `old`, and to `remove` each key as often as it
occurs more in `old` than in `new`. -/
theorem create_sync_lists_while_count {α : Type} [DecidableEq α] {cmp : α → α → Int}
    (h : IsTotalCmp cmp) :
    ∀ (old new add remove : List α),
      old.Pairwise (fun a b => cmp a b ≤ 0) → new.Pairwise (fun a b => cmp a b ≤ 0) →
      ∀ x,
        (create_sync_lists_while cmp old new add remove).1.count x =
          add.count x + (new.count x - old.count x) ∧
        (create_sync_lists_while cmp old new add remove).2.count x =
          remove.count x + (old.count x - new.count x) := by
  intro old new add remove
  induction old, new, add, remove using create_sync_lists_while.induct cmp with
  | case1 new add remove =>
    intro _ _ x
    simp only [create_sync_lists_while]
    simp [List.count_append, Nat.add_comm]
  | case2 old add remove hne =>
    intro _ _ x
    rw [create_sync_lists_while]
    · simp [List.count_append, Nat.add_comm]
    · exact hne
  | case3 o old n new add remove c hc ih =>
    intro ho hn x
    rw [create_sync_lists_while]
    simp only [show cmp o n > 0 from hc, if_true]
    have hn2 := List.pairwise_cons.1 hn
    have ih2 := ih ho hn2.2 x
    have hc2 : cmp o n > 0 := hc
    have hno : n ∉ o :: old := by
      intro hmem
      rcases List.mem_cons.1 hmem with e | e
      · have := (h.eq_zero o n).2 e.symm
        omega
      · have h1 := (List.pairwise_cons.1 ho).1 n e
        omega
    have hcount : (o :: old).count n = 0 := List.count_eq_zero.2 hno
    rw [ih2.1, ih2.2]
    by_cases hx : x = n
    · subst hx
      rw [hcount]
      simp
      omega
    · have e1 : (n :: add).count x = add.count x := List.count_cons_of_ne hx _
      have e2 : (n :: new).count x = new.count x := List.count_cons_of_ne hx _
      rw [e1, e2]
      exact ⟨rfl, rfl⟩
  | case4 o old n new add remove c hc1 hc2 ih =>
    intro ho hn x
    rw [create_sync_lists_while]
    simp only [show ¬ cmp o n > 0 from hc1, show cmp o n < 0 from hc2, if_true, if_false]
    have ho2 := List.pairwise_cons.1 ho
    have ih2 := ih ho2.2 hn x
    have hc3 : cmp o n < 0 := hc2
    have hon : o ∉ n :: new := by
      intro hmem
      rcases List.mem_cons.1 hmem with e | e
      · have := (h.eq_zero o n).2 e
        omega
      · have h1 := (List.pairwise_cons.1 hn).1 o e
        have := h.swap o n
        omega
    have hcount : (n :: new).count o = 0 := List.count_eq_zero.2 hon
    rw [ih2.1, ih2.2]
    by_cases hx : x = o
    · subst hx
      rw [hcount]
      simp
      omega
    · have e1 : (o :: remove).count x = remove.count x := List.count_cons_of_ne hx _
      have e2 : (o :: old).count x = old.count x := List.count_cons_of_ne hx _
      rw [e1, e2]
      exact ⟨rfl, rfl⟩
  | case5 o old n new add remove c hc1 hc2 ih =>
    intro ho hn x
    rw [create_sync_lists_while]
    simp only [show ¬ cmp o n > 0 from hc1, show ¬ cmp o n < 0 from hc2, if_false]
    have ho2 := List.pairwise_cons.1 ho
    have hn2 := List.pairwise_cons.1 hn
    have ih2 := ih ho2.2 hn2.2 x
    have hc3 : ¬ cmp o n > 0 := hc1
    have hc4 : ¬ cmp o n < 0 := hc2
    have heq : o = n := (h.eq_zero o n).1 (by omega)
    subst heq
    rw [ih2.1, ih2.2]
    by_cases hx : x = o
    · subst hx
      simp
    · have e1 : (o :: new).count x = new.count x := List.count_cons_of_ne hx _
      have e2 : (o :: old).count x = old.count x := List.count_cons_of_ne hx _
      rw [e1, e2]
      exact ⟨rfl, rfl⟩

/-- The outputs of `create_sync_lists` as multisets: `to_add` is `new` minus
`old` and `to_remove` is `old` minus `new`, for all lists. -/
theorem create_sync_lists_count {α : Type} [DecidableEq α] {cmp : α → α → Int}
    (h : IsTotalCmp cmp) (old new : List α) (x : α) :
    (create_sync_lists old new cmp).1.count x = new.count x - old.count x ∧
    (create_sync_lists old new cmp).2.count x = old.count x - new.count x := by
  have hw := create_sync_lists_while_count h (g_slist_sort old cmp) (g_slist_sort new cmp) [] []
    (g_slist_sort_sorted h old) (g_slist_sort_sorted h new) x
  have co : (g_slist_sort old cmp).count x = old.count x := (g_slist_sort_perm old cmp).count_eq x
  have cn : (g_slist_sort new cmp).count x = new.count x := (g_slist_sort_perm new cmp).count_eq x
  simp only [List.count_nil, Nat.zero_add, co, cn] at hw
  exact hw

/-! ## Lemmas on the shortcuts -/

/-- Membership in the outputs of `create_sync_lists`, for all lists: a key is in
`to_add` when `new` has it more often than `old`, in `to_remove` when `old`
has it more often than `new`. -/
theorem create_sync_lists_mem_count {α : Type} [DecidableEq α] {cmp : α → α → Int}
    (h : IsTotalCmp cmp) (old new : List α) (x : α) :
    (x ∈ (create_sync_lists old new cmp).1 ↔ old.count x < new.count x) ∧
    (x ∈ (create_sync_lists old new cmp).2 ↔ new.count x < old.count x) := by
  have hc := create_sync_lists_count h old new x
  constructor
  · rw [← List.count_pos_iff, hc.1]; omega
  · rw [← List.count_pos_iff, hc.2]; omega

theorem copy_and_convert_string_list_eq (list : List String) :
    copy_and_convert_string_list list = list := by
  have key : ∀ (l acc : List String),
      l.foldl (fun result v => result ++ [v]) acc = acc ++ l := by
    intro l
    induction l with
    | nil => intro acc; simp
    | cons a t ih => intro acc; simp [List.foldl_cons, ih]
  unfold copy_and_convert_string_list
  rw [key]
  rfl

theorem mem_applets_keys_remove (applets : List (String × GtkWidget)) (key id : String) :
    id ∈ applets_keys (applets_remove applets key).1 ↔ (id ∈ applets_keys applets ∧ id ≠ key) := by
  unfold applets_remove
  by_cases hk : key ∈ applets_keys applets
  · rw [if_pos hk]
    simp only [applets_keys, List.mem_map, List.mem_filter]
    constructor
    · rintro ⟨entry, ⟨hmem, hne⟩, rfl⟩
      exact ⟨⟨entry, hmem, rfl⟩, by simpa using hne⟩
    · rintro ⟨⟨entry, hmem, rfl⟩, hne⟩
      exact ⟨entry, ⟨hmem, by simpa using hne⟩, rfl⟩
  · rw [if_neg hk]
    constructor
    · intro h
      exact ⟨h, fun e => hk (e ▸ h)⟩
    · exact fun h => h.1

theorem applets_lookup_remove (applets : List (String × GtkWidget)) (key id : String)
    (hne : id ≠ key) :
    applets_lookup (applets_remove applets key).1 id = applets_lookup applets id := by
  unfold applets_remove
  by_cases hk : key ∈ applets_keys applets
  · simp only [hk, if_true]
    clear hk
    induction applets with
    | nil => rfl
    | cons entry rest ih =>
      by_cases he : entry.1 = key
      · have hid : ¬ entry.1 = id := fun e => hne (e.symm.trans he)
        have hid2 : ¬ key = id := fun e => hne e.symm
        simp [List.filter_cons, he, applets_lookup, hid2, ih]
      · simp [List.filter_cons, he, applets_lookup, ih]
  · simp only [hk, if_false]

theorem applets_remove_effects (applets : List (String × GtkWidget)) (key : String) :
    (∀ e ∈ (applets_remove applets key).2, e = ShortcutsEffect.gtk_widget_destroy key) ∧
    (key ∈ applets_keys applets →
      ShortcutsEffect.gtk_widget_destroy key ∈ (applets_remove applets key).2) := by
  unfold applets_remove
  by_cases hk : key ∈ applets_keys applets
  · simp [hk]
  · simp [hk]

theorem shortcuts_sync_remove_spec (to_remove : List String) :
    ∀ applets : List (String × GtkWidget),
      (∀ id, id ∈ applets_keys (shortcuts_sync_remove applets to_remove).1 ↔
        (id ∈ applets_keys applets ∧ id ∉ to_remove)) ∧
      (∀ id, id ∉ to_remove →
        applets_lookup (shortcuts_sync_remove applets to_remove).1 id =
          applets_lookup applets id) ∧
      (∀ e ∈ (shortcuts_sync_remove applets to_remove).2,
        ∃ s ∈ to_remove, e = ShortcutsEffect.gtk_widget_destroy s) ∧
      (∀ s ∈ to_remove, s ∈ applets_keys applets →
        ShortcutsEffect.gtk_widget_destroy s ∈ (shortcuts_sync_remove applets to_remove).2) := by
  induction to_remove with
  | nil =>
    intro applets
    simp [shortcuts_sync_remove]
  | cons s rest ih =>
    intro applets
    obtain ⟨i1, i2, i3, i4⟩ := ih (applets_remove applets s).1
    have r1 := mem_applets_keys_remove applets s
    have r3 := applets_remove_effects applets s
    simp only [shortcuts_sync_remove]
    refine ⟨?_, ?_, ?_, ?_⟩
    · intro id
      rw [i1 id, r1 id]
      simp only [List.mem_cons, not_or]
      tauto
    · intro id hid
      simp only [List.mem_cons, not_or] at hid
      rw [i2 id hid.2, applets_lookup_remove applets s id hid.1]
    · intro e he
      rcases List.mem_append.1 he with he | he
      · exact ⟨s, List.mem_cons_self _ _, r3.1 e he⟩
      · obtain ⟨t, ht, hte⟩ := i3 e he
        exact ⟨t, List.mem_cons_of_mem _ ht, hte⟩
    · intro t ht hkey
      by_cases hts : t = s
      · subst hts
        exact List.mem_append_left _ (r3.2 hkey)
      · have ht2 : t ∈ rest := by
          rcases List.mem_cons.1 ht with e | e
          · exact absurd e hts
          · exact e
        exact List.mem_append_right _ (i4 t ht2 ((r1 t).2 ⟨hkey, hts⟩))

theorem mem_applets_keys_insert (applets : List (String × GtkWidget)) (key id : String)
    (widget : GtkWidget) :
    id ∈ applets_keys (applets_insert applets key widget).1 ↔
      (id ∈ applets_keys applets ∨ id = key) := by
  unfold applets_insert
  by_cases hk : key ∈ applets_keys applets
  · rw [if_pos hk]
    have hkeys : applets_keys
        (applets.map (fun entry => if entry.1 = key then (entry.1, widget) else entry)) =
        applets_keys applets := by
      unfold applets_keys
      rw [List.map_map]
      apply List.map_congr_left
      intro entry _
      by_cases he : entry.1 = key <;> simp [he]
    rw [hkeys]
    constructor
    · exact Or.inl
    · rintro (h | h)
      · exact h
      · rw [h]; exact hk
  · rw [if_neg hk]
    simp only [applets_keys, List.map_append, List.mem_append, List.map_cons,
      List.map_nil, List.mem_singleton]

theorem applets_lookup_insert (applets : List (String × GtkWidget)) (key id : String)
    (widget : GtkWidget) (hne : id ≠ key) :
    applets_lookup (applets_insert applets key widget).1 id = applets_lookup applets id := by
  unfold applets_insert
  by_cases hk : key ∈ applets_keys applets
  · simp only [hk, if_true]
    clear hk
    induction applets with
    | nil => rfl
    | cons entry rest ih =>
      by_cases he : entry.1 = key
      · have hid : ¬ entry.1 = id := fun e => hne (e.symm.trans he)
        have hid2 : ¬ key = id := fun e => hne e.symm
        simp [applets_lookup, he, hid2, ih]
      · simp [applets_lookup, he, ih]
  · simp only [hk, if_false]
    clear hk
    induction applets with
    | nil =>
      have hid2 : ¬ key = id := fun e => hne e.symm
      simp [applets_lookup, hid2]
    | cons entry rest ih =>
      simp only [List.cons_append, applets_lookup, List.append_eq, ih]

theorem applets_insert_effects (applets : List (String × GtkWidget)) (key : String)
    (widget : GtkWidget) :
    (∀ e ∈ (applets_insert applets key widget).2, e = ShortcutsEffect.gtk_widget_destroy key) ∧
    (key ∉ applets_keys applets → (applets_insert applets key widget).2 = []) := by
  unfold applets_insert
  by_cases hk : key ∈ applets_keys applets
  · simp [hk]
  · simp [hk]

theorem shortcuts_sync_add_spec (throttled : Bool) (to_add : List String) :
    ∀ applets : List (String × GtkWidget),
      (∀ id, id ∈ applets_keys (shortcuts_sync_add throttled applets to_add).1 ↔
        (id ∈ applets_keys applets ∨ id ∈ to_add)) ∧
      (∀ id, id ∉ to_add →
        applets_lookup (shortcuts_sync_add throttled applets to_add).1 id =
          applets_lookup applets id) ∧
      (∀ id, ShortcutsEffect.g_object_new id ∈ (shortcuts_sync_add throttled applets to_add).2 ↔
        id ∈ to_add) ∧
      (∀ id, ShortcutsEffect.gtk_widget_destroy id ∈
        (shortcuts_sync_add throttled applets to_add).2 → id ∈ to_add) ∧
      (to_add.Nodup → (∀ id ∈ to_add, id ∉ applets_keys applets) →
        ∀ id, ShortcutsEffect.gtk_widget_destroy id ∉
          (shortcuts_sync_add throttled applets to_add).2) := by
  induction to_add with
  | nil =>
    intro applets
    simp [shortcuts_sync_add]
  | cons s rest ih =>
    intro applets
    obtain ⟨i1, i2, i3, i4, i5⟩ :=
      ih (applets_insert applets s { plugin_id := s, visible := !throttled }).1
    have k1 := mem_applets_keys_insert applets s
    have k3 := applets_insert_effects applets s { plugin_id := s, visible := !throttled }
    simp only [shortcuts_sync_add]
    refine ⟨?_, ?_, ?_, ?_, ?_⟩
    · intro id
      rw [i1 id, k1 id]
      simp only [List.mem_cons]
      tauto
    · intro id hid
      simp only [List.mem_cons, not_or] at hid
      rw [i2 id hid.2, applets_lookup_insert applets s id _ hid.1]
    · intro id
      simp only [List.mem_append, List.mem_cons, List.mem_singleton, List.not_mem_nil,
        or_false, i3 id, ShortcutsEffect.g_object_new.injEq]
      constructor
      · rintro (((h | h) | h) | h)
        · exact Or.inl h
        · exact absurd (k3.1 _ h) (by simp)
        · cases throttled <;> simp at h
        · exact Or.inr h
      · rintro (h | h)
        · exact Or.inl (Or.inl (Or.inl h))
        · exact Or.inr h
    · intro id
      simp only [List.mem_append, List.mem_cons, List.mem_singleton, List.not_mem_nil,
        or_false, reduceCtorEq, false_or]
      rintro ((h | h) | h)
      · have := k3.1 _ h
        simp only [ShortcutsEffect.gtk_widget_destroy.injEq] at this
        exact Or.inl this
      · cases throttled <;> simp at h
      · exact Or.inr (i4 id h)
    · intro hnd hdisj id
      have hnd2 := List.nodup_cons.1 hnd
      have hs : s ∉ applets_keys applets := hdisj s (List.mem_cons_self _ _)
      have hrest : ∀ t ∈ rest, t ∉ applets_keys
          (applets_insert applets s { plugin_id := s, visible := !throttled }).1 := by
        intro t ht hmem
        rcases (k1 t _).1 hmem with h | h
        · exact hdisj t (List.mem_cons_of_mem _ ht) h
        · exact hnd2.1 (h ▸ ht)
      have i5b := i5 hnd2.2 hrest id
      simp only [List.mem_append, List.mem_cons, List.mem_singleton, List.not_mem_nil,
        or_false, reduceCtorEq, false_or, k3.2 hs]
      rintro (h | h)
      · cases throttled <;> simp at h
      · exact i5b h

theorem applets_keys_hide (applets : List (String × GtkWidget)) (plugin_id : String) :
    applets_keys (applets_hide applets plugin_id) = applets_keys applets := by
  unfold applets_keys applets_hide
  rw [List.map_map]
  apply List.map_congr_left
  intro entry _
  by_cases he : entry.1 = plugin_id <;> simp [he]

theorem applets_lookup_hide (applets : List (String × GtkWidget)) (plugin_id id : String)
    (hne : id ≠ plugin_id) :
    applets_lookup (applets_hide applets plugin_id) id = applets_lookup applets id := by
  unfold applets_hide
  induction applets with
  | nil => rfl
  | cons entry rest ih =>
    by_cases he : entry.1 = plugin_id
    · have hid : ¬ entry.1 = id := fun e => hne (e.symm.trans he)
      have hid2 : ¬ plugin_id = id := fun e => hne e.symm
      simp [applets_lookup, he, hid2, ih]
    · simp [applets_lookup, he, ih]

theorem g_slist_delete_found_eq (list : List String) (plugin_id : String) :
    g_slist_delete_found list plugin_id = list.erase plugin_id := by
  induction list with
  | nil => rfl
  | cons a t ih =>
    by_cases h : a = plugin_id
    · subst h
      have h0 : strcmp a a = 0 := (strcmp_isTotalCmp.eq_zero a a).2 rfl
      simp [g_slist_delete_found, h0]
    · have h0 : ¬ strcmp a plugin_id = 0 := fun e => h ((strcmp_isTotalCmp.eq_zero a plugin_id).1 e)
      simp [g_slist_delete_found, h0, ih, List.erase_cons, h]

theorem mem_applets_keys_iff_lookup (applets : List (String × GtkWidget)) (id : String) :
    id ∈ applets_keys applets ↔ ∃ widget, applets_lookup applets id = some widget := by
  induction applets with
  | nil => simp [applets_keys, applets_lookup]
  | cons entry rest ih =>
    by_cases he : entry.1 = id
    · simp [applets_keys, applets_lookup, he]
    · have hne : ¬ id = entry.1 := fun e => he e.symm
      have ih2 : id ∈ List.map Prod.fst rest ↔ ∃ widget, applets_lookup rest id = some widget := ih
      simp only [applets_keys, List.map_cons, List.mem_cons, hne, false_or, applets_lookup, he,
        if_false, ih2]

/-- After `shortcuts_sync` the ids in `applets` are the ids of
`current_list`. -/
theorem shortcuts_sync_keys (priv : HDShortcutsPrivate)
    (hkeys : (applets_keys priv.applets).Nodup) (id : String) :
    id ∈ applets_keys (shortcuts_sync priv).1.applets ↔ id ∈ priv.current_list := by
  have hm := create_sync_lists_mem_count strcmp_isTotalCmp (applets_keys priv.applets)
    priv.current_list id
  have hr := (shortcuts_sync_remove_spec
    (create_sync_lists (applets_keys priv.applets) priv.current_list strcmp).2 priv.applets).1 id
  have ha := (shortcuts_sync_add_spec priv.throttled
    (create_sync_lists (applets_keys priv.applets) priv.current_list strcmp).1
    (shortcuts_sync_remove priv.applets
      (create_sync_lists (applets_keys priv.applets) priv.current_list strcmp).2).1).1 id
  have hle := List.nodup_iff_count_le_one.1 hkeys id
  have hold : id ∈ applets_keys priv.applets ↔ 0 < (applets_keys priv.applets).count id :=
    List.count_pos_iff.symm
  have hnew : id ∈ priv.current_list ↔ 0 < priv.current_list.count id :=
    List.count_pos_iff.symm
  simp only [shortcuts_sync]
  rw [ha, hr, hm.1, hm.2, hold, hnew]
  omega

/-- An id that `shortcuts_sync` neither adds nor removes keeps its widget. -/
theorem shortcuts_sync_lookup (priv : HDShortcutsPrivate) (id : String)
    (hadd : id ∉ (create_sync_lists (applets_keys priv.applets) priv.current_list strcmp).1)
    (hremove : id ∉ (create_sync_lists (applets_keys priv.applets) priv.current_list strcmp).2) :
    applets_lookup (shortcuts_sync priv).1.applets id = applets_lookup priv.applets id := by
  simp only [shortcuts_sync]
  rw [(shortcuts_sync_add_spec priv.throttled _ _).2.1 id hadd,
    (shortcuts_sync_remove_spec _ priv.applets).2.1 id hremove]

/-- The constructions of `shortcuts_sync` are those of the ids of `to_add`. -/
theorem shortcuts_sync_constructs (priv : HDShortcutsPrivate) (id : String) :
    ShortcutsEffect.g_object_new id ∈ (shortcuts_sync priv).2 ↔
      id ∈ (create_sync_lists (applets_keys priv.applets) priv.current_list strcmp).1 := by
  simp only [shortcuts_sync, List.mem_append]
  rw [(shortcuts_sync_add_spec priv.throttled _ _).2.2.1 id]
  constructor
  · rintro (h | h)
    · obtain ⟨s, _, hs⟩ := (shortcuts_sync_remove_spec _ priv.applets).2.2.1 _ h
      cases hs
    · exact h
  · exact Or.inr

/-! ## Lemmas on the order of the scan and on the suffix of the table -/

/-- The scan of the plugin directories monitors and then opens each directory,
one directory after the other. -/
theorem scan_plugin_dirs_order (w : World) (dirs : List String) :
    ∀ t : GHashTable, (scan_plugin_dirs w dirs t).2 =
      (dirs.map (fun dir => [Effect.g_file_monitor_directory dir, Effect.g_dir_open dir])).flatten := by
  induction dirs with
  | nil => intro t; rfl
  | cons d ds ih =>
    intro t
    unfold scan_plugin_dirs
    cases hd : w.g_dir_open d with
    | none => simp [ih]
    | some names => simp [ih]

theorem dropWhile_sep_suffix (front : List Char) :
    ∃ rest, (front ++ ".desktop".data).dropWhile (fun c => c == '/') =
      rest ++ ".desktop".data := by
  induction front with
  | nil => exact ⟨[], by decide⟩
  | cons c f ih =>
    by_cases hc : (c == '/') = true
    · obtain ⟨rest, hrest⟩ := ih
      refine ⟨rest, ?_⟩
      rw [List.cons_append, List.dropWhile_cons]
      simp only [hc, if_true]
      exact hrest
    · refine ⟨c :: f, ?_⟩
      rw [List.cons_append, List.dropWhile_cons]
      simp only [hc, Bool.false_eq_true, if_false]

/-- A file name built from a directory and a name ending in `.desktop` ends in
`.desktop`. -/
theorem g_build_filename_suffix (dir name : String)
    (h : g_str_has_suffix name ".desktop" = true) :
    g_str_has_suffix (g_build_filename [dir, name]) ".desktop" = true := by
  obtain ⟨front, hfront⟩ := (g_str_has_suffix_iff name ".desktop").1 h
  obtain ⟨rest, hrest⟩ := dropWhile_sep_suffix front
  rw [← hfront] at hrest
  have hlast : ∀ c ∈ (name.data.dropWhile (fun c => c == '/')).getLast?, c ≠ '/' := by
    rw [hrest]
    intro c hc
    have e : (rest ++ ".desktop".data).getLast? = some 'p' := by
      rw [List.getLast?_append_of_ne_nil _ (by decide)]
      decide
    rw [e] at hc
    cases hc
    decide
  have hbody := strip_trailing_sep_eq hlast
  have hstart : name.data.dropWhile (fun c => c == '/') ≠ [] := by
    rw [hrest]
    intro e
    have := congrArg List.length e
    simp at this
  have hname : name.data ≠ [] := by
    intro e
    rw [e] at hstart
    exact hstart rfl
  rw [g_str_has_suffix_iff]
  have hstep : ∀ st : BuildPath,
      (st.have_leading = true ∨ st.single_element = none) →
      (g_build_path_step st name.data).single_element = none ∧
      (g_build_path_step st name.data).last_trailing = some [] ∧
      ∃ pre, (g_build_path_step st name.data).result =
        pre ++ name.data.dropWhile (fun c => c == '/') := by
    intro st hst
    simp only [g_build_path_step, List.isEmpty_eq_true, hname, if_false, hbody, hstart,
      List.drop_length]
    by_cases hl : st.have_leading = true
    · simp only [hl, if_true]
      exact ⟨trivial, trivial, _, rfl⟩
    · have hs : st.single_element = none := by
        rcases hst with h1 | h1
        · exact absurd h1 hl
        · exact h1
      simp only [hl, Bool.false_eq_true, if_false, hs]
      exact ⟨trivial, trivial, _, rfl⟩
  have hdir : (g_build_path_step
      { result := [], is_first := true, have_leading := false, single_element := none,
        last_trailing := none } dir.data).have_leading = true ∨
      (g_build_path_step
      { result := [], is_first := true, have_leading := false, single_element := none,
        last_trailing := none } dir.data).single_element = none := by
    by_cases hd : dir.data = []
    · right
      simp [g_build_path_step, hd]
    · left
      simp only [g_build_path_step, List.isEmpty_eq_true, hd, if_false, Bool.false_eq_true]
      split <;> rfl
  obtain ⟨h1, h2, pre, h3⟩ := hstep _ hdir
  refine ⟨pre ++ rest, ?_⟩
  simp only [g_build_filename, List.map, List.foldl, h1, h2, h3, hrest, Option.getD_some,
    List.append_nil, List.append_assoc]

/-- The table of available plugins after the configuration-loaded handler is
empty or the result of the scan from the empty table. -/
theorem configuration_loaded_available (w : World) (priv : HDPluginConfigurationPrivate)
    (keyfile : GKeyFile) :
    (hd_plugin_configuration_configuration_loaded w priv keyfile).1.available_plugins = [] ∨
    ∃ dirs, (hd_plugin_configuration_configuration_loaded w priv keyfile).1.available_plugins =
      (scan_plugin_dirs w dirs []).1 := by
  obtain ⟨config_file, items_config_file, items_key_file, plugin_dirs, plugin_dir_files,
    plugin_dir_monitors, available_plugins, startup⟩ := priv
  cases hg : keyfile.g_key_file_has_group HD_PLUGIN_CONFIGURATION_CONFIG_GROUP
  · left
    cases plugin_dirs <;>
      simp [hd_plugin_configuration_configuration_loaded, g_hash_table_remove_all, hg]
  · cases hl : keyfile.g_key_file_get_string_list HD_PLUGIN_CONFIGURATION_CONFIG_GROUP
      w.HD_DESKTOP_CONFIG_KEY_PLUGIN_DIR with
    | none =>
      left
      cases plugin_dirs <;>
        simp [hd_plugin_configuration_configuration_loaded, g_hash_table_remove_all, hg, hl]
    | some directories =>
      right
      refine ⟨directories.map g_strstrip, ?_⟩
      cases hs : keyfile.g_key_file_get_string HD_PLUGIN_CONFIGURATION_CONFIG_GROUP
        HD_PLUGIN_CONFIGURATION_CONFIG_KEY_PLUGIN_CONFIGURATION <;>
      cases plugin_dirs <;>
        simp [hd_plugin_configuration_configuration_loaded, g_hash_table_remove_all, hg, hl, hs,
          hd_plugin_configuration_load_plugin_configuration]

/-- Every path in the table after the configuration-loaded handler ends in
`.desktop`. -/
theorem configuration_loaded_suffix (w : World) (priv : HDPluginConfigurationPrivate)
    (keyfile : GKeyFile) :
    ∀ path ∈ (hd_plugin_configuration_configuration_loaded w priv keyfile).1.available_plugins,
      g_str_has_suffix path ".desktop" = true := by
  intro path hpath
  rcases configuration_loaded_available w priv keyfile with e | ⟨dirs, e⟩
  · rw [e] at hpath
    cases hpath
  · rw [e, mem_scan_plugin_dirs] at hpath
    rcases hpath with h | ⟨dir, _, names, _, name, _, hsuffix, rfl⟩
    · cases h
    · exact g_build_filename_suffix dir name hsuffix

/-- A load of the configuration keeps the suffix invariant of the table. -/
theorem load_configuration_suffix (w : World) (priv : HDPluginConfigurationPrivate)
    (h : ∀ path ∈ priv.available_plugins, g_str_has_suffix path ".desktop" = true) :
    ∀ path ∈ (hd_plugin_configuration_load_configuration w priv).1.available_plugins,
      g_str_has_suffix path ".desktop" = true := by
  unfold hd_plugin_configuration_load_configuration
  split
  · exact h
  · exact configuration_loaded_suffix w priv _

/-- The directory-change handler keeps the suffix invariant of the table. -/
theorem plugin_dir_changed_suffix (priv : HDPluginConfigurationPrivate) (path : String)
    (event_type : GFileMonitorEvent)
    (h : ∀ p ∈ priv.available_plugins, g_str_has_suffix p ".desktop" = true) :
    ∀ p ∈ (hd_plugin_configuration_plugin_dir_changed priv path event_type).1.available_plugins,
      g_str_has_suffix p ".desktop" = true := by
  unfold hd_plugin_configuration_plugin_dir_changed
  split
  · exact h
  · rename_i hsuffix
    have hsuffix : g_str_has_suffix path ".desktop" = true := by
      cases hp : g_str_has_suffix path ".desktop"
      · simp [hp] at hsuffix
      · rfl
    split
    · split
      · exact h
      · intro p hp
        rcases (mem_g_hash_table_insert _ _ _).1 hp with hp | hp
        · exact h p hp
        · rw [hp]
          exact hsuffix
    · split
      · intro p hp
        exact h p ((mem_g_hash_table_remove _ _ _).1 hp).1
      · exact h

/-- Every call keeps the suffix invariant of the table. -/
theorem plugin_configuration_step_suffix (priv : HDPluginConfigurationPrivate)
    (call : World × PluginConfigurationCall)
    (h : ∀ p ∈ priv.available_plugins, g_str_has_suffix p ".desktop" = true) :
    ∀ p ∈ (plugin_configuration_step priv call).available_plugins,
      g_str_has_suffix p ".desktop" = true := by
  obtain ⟨w, c⟩ := call
  cases c with
  | run => exact load_configuration_suffix w priv h
  | config_file_changed => exact load_configuration_suffix w priv h
  | items_config_file_changed =>
    simp only [plugin_configuration_step]
    split
    · exact h
    · exact h
  | plugin_dir_changed path event_type => exact plugin_dir_changed_suffix priv path event_type h

theorem plugin_configuration_steps_suffix (calls : List (World × PluginConfigurationCall)) :
    ∀ priv : HDPluginConfigurationPrivate,
      (∀ p ∈ priv.available_plugins, g_str_has_suffix p ".desktop" = true) →
      ∀ p ∈ (plugin_configuration_steps priv calls).available_plugins,
        g_str_has_suffix p ".desktop" = true := by
  induction calls with
  | nil => intro priv h; exact h
  | cons c cs ih =>
    intro priv h
    exact ih _ (plugin_configuration_step_suffix priv c h)

/-! ## Lemmas on the bookmark ids -/

theorem toDigitsCore_append : ∀ (fuel n : Nat) (ds : List Char),
    Nat.toDigitsCore 10 fuel n ds = Nat.toDigitsCore 10 fuel n [] ++ ds := by
  intro fuel
  induction fuel with
  | zero => intro n ds; simp [Nat.toDigitsCore]
  | succ fuel ih =>
    intro n ds
    simp only [Nat.toDigitsCore]
    split
    · simp
    · rw [ih _ (Nat.digitChar (n % 10) :: ds), ih _ [Nat.digitChar (n % 10)]]
      simp

theorem decimal_value_append (ds : List Char) (c : Char) :
    decimal_value (ds ++ [c]) = decimal_value ds * 10 + (c.toNat - 48) := by
  simp [decimal_value, List.foldl_append]

theorem digitChar_value (d : Nat) (h : d < 10) : (Nat.digitChar d).toNat - 48 = d := by
  interval_cases d <;> rfl

theorem decimal_value_toDigitsCore : ∀ (fuel n : Nat), n < fuel →
    decimal_value (Nat.toDigitsCore 10 fuel n []) = n := by
  intro fuel
  induction fuel with
  | zero => intro n h; omega
  | succ fuel ih =>
    intro n h
    simp only [Nat.toDigitsCore]
    split
    · rename_i h0
      have : n < 10 := by omega
      have e : n % 10 = n := Nat.mod_eq_of_lt this
      rw [e]
      simp [decimal_value, digitChar_value n this]
    · rename_i h0
      rw [toDigitsCore_append, decimal_value_append, ih (n / 10) (by omega),
        digitChar_value _ (Nat.mod_lt _ (by decide))]
      omega

/-- Printing with `%u` is injective. -/
theorem toString_injective (a b : Nat) (h : toString a = toString b) : a = b := by
  have ha : decimal_value (toString a).data = a := decimal_value_toDigitsCore (a + 1) a (by omega)
  have hb : decimal_value (toString b).data = b := decimal_value_toDigitsCore (b + 1) b (by omega)
  rw [← ha, ← hb, h]

theorem bookmark_id_injective (canon_url : String) (a b : Nat)
    (h : canon_url ++ "-" ++ toString a = canon_url ++ "-" ++ toString b) : a = b := by
  apply toString_injective
  have h2 := congrArg String.data h
  simp only [String.data_append, List.append_assoc] at h2
  exact String.ext (List.append_cancel_left (List.append_cancel_left h2))

theorem g_slist_find_custom_strcmp (list : List String) (id : String) :
    (g_slist_find_custom list id strcmp).isSome = true ↔ id ∈ list := by
  unfold g_slist_find_custom
  rw [List.find?_isSome]
  constructor
  · rintro ⟨x, hx, h⟩
    have : strcmp x id = 0 := by simpa using h
    rw [← (strcmp_isTotalCmp.eq_zero x id).1 this]
    exact hx
  · intro h
    exact ⟨id, h, by simp [(strcmp_isTotalCmp.eq_zero id id).2 rfl]⟩

/-- The loop ends with the first id from `count` on that is not in the list,
when the counter reaches it before `2 ^ 32` and within the rounds allowed. -/
theorem do_while_found (canon_url : String) (list : List String) (n : Nat)
    (hn : n < 2 ^ 32) (habsent : canon_url ++ "-" ++ toString n ∉ list) :
    ∀ (fuel count : Nat), count ≤ n → n - count < fuel →
      (∀ m, count ≤ m → m < n → canon_url ++ "-" ++ toString m ∈ list) →
      hd_shortcuts_add_bookmark_shortcut_do_while canon_url list fuel count =
        some (canon_url ++ "-" ++ toString n) := by
  intro fuel
  induction fuel with
  | zero => intro count _ h; omega
  | succ fuel ih =>
    intro count hc hf hbelow
    simp only [hd_shortcuts_add_bookmark_shortcut_do_while]
    by_cases hcn : count = n
    · subst hcn
      rw [if_neg]
      rw [g_slist_find_custom_strcmp]
      exact habsent
    · have hlt : count < n := by omega
      rw [if_pos ((g_slist_find_custom_strcmp _ _).2 (hbelow count (le_refl _) hlt))]
      have hmod : (count + 1) % 2 ^ 32 = count + 1 := Nat.mod_eq_of_lt (by omega)
      rw [hmod]
      exact ih (count + 1) (by omega) (by omega) (fun m h1 h2 => hbelow m (by omega) h2)

/-- The loop never ends on a list that holds the id of every value of the
counter. -/
theorem do_while_none (canon_url : String) (list : List String)
    (hall : ∀ n, n < 2 ^ 32 → canon_url ++ "-" ++ toString n ∈ list) :
    ∀ (fuel count : Nat), count < 2 ^ 32 →
      hd_shortcuts_add_bookmark_shortcut_do_while canon_url list fuel count = none := by
  intro fuel
  induction fuel with
  | zero => intro count _; rfl
  | succ fuel ih =>
    intro count hc
    simp only [hd_shortcuts_add_bookmark_shortcut_do_while]
    rw [if_pos ((g_slist_find_custom_strcmp _ _).2 (hall count hc))]
    exact ih _ (Nat.mod_lt _ (by decide))

/-- Among the first ids of a URL, one more than the list is long, one is not
in the list; the least such number is at most the length of the list. -/
theorem least_absent (canon_url : String) (list : List String) :
    ∃ n : Nat, n ≤ list.length ∧ canon_url ++ "-" ++ toString n ∉ list ∧
      ∀ m, m < n → canon_url ++ "-" ++ toString m ∈ list := by
  have hex : ∃ n : Nat, canon_url ++ "-" ++ toString n ∉ list := by
    by_contra hall
    simp only [not_exists, not_not] at hall
    have hnodup : ((List.range (list.length + 1)).map
        (fun n : Nat => canon_url ++ "-" ++ toString n)).Nodup :=
      (List.nodup_range _).map (fun a b h => bookmark_id_injective canon_url a b h)
    have hsub : (List.range (list.length + 1)).map
        (fun n : Nat => canon_url ++ "-" ++ toString n) ⊆ list := by
      intro x hx
      rcases List.mem_map.1 hx with ⟨n, _, rfl⟩
      exact hall n
    have := (hnodup.subperm hsub).length_le
    simp at this
  classical
  refine ⟨Nat.find hex, ?_, Nat.find_spec hex, fun m hm => ?_⟩
  · by_contra hgt
    have hnodup : ((List.range (list.length + 1)).map
        (fun n : Nat => canon_url ++ "-" ++ toString n)).Nodup :=
      (List.nodup_range _).map (fun a b h => bookmark_id_injective canon_url a b h)
    have hsub : (List.range (list.length + 1)).map
        (fun n : Nat => canon_url ++ "-" ++ toString n) ⊆ list := by
      intro x hx
      rcases List.mem_map.1 hx with ⟨n, hn, rfl⟩
      have hn2 : n < Nat.find hex := by
        have := List.mem_range.1 hn
        omega
      exact not_not.1 (Nat.find_min hex hn2)
    have := (hnodup.subperm hsub).length_le
    simp at this
  · exact not_not.1 (Nat.find_min hex hm)

/-- The id of a bookmark, for a stored list of fewer than `2 ^ 32` ids: the
loop ends within `length + 1` rounds, with the least number whose id is not in
the list. -/
theorem bookmark_id_generated (url : String) (list : List String)
    (hlength : list.length < 2 ^ 32) :
    ∃ n : Nat, n ≤ list.length ∧
      (∀ fuel, list.length < fuel →
        hd_shortcuts_add_bookmark_shortcut_id fuel list url =
          some (ascii_string (g_strcanon (g_strndup (c_string url) MAX_URL_LENGTH)
            ID_VALID_CHARS ID_SUBSTITUTOR) ++ "-" ++ toString n)) ∧
      ascii_string (g_strcanon (g_strndup (c_string url) MAX_URL_LENGTH)
        ID_VALID_CHARS ID_SUBSTITUTOR) ++ "-" ++ toString n ∉ list ∧
      ∀ m : Nat, m < n →
        ascii_string (g_strcanon (g_strndup (c_string url) MAX_URL_LENGTH)
          ID_VALID_CHARS ID_SUBSTITUTOR) ++ "-" ++ toString m ∈ list := by
  obtain ⟨n, hn, habsent, hbelow⟩ := least_absent
    (ascii_string (g_strcanon (g_strndup (c_string url) MAX_URL_LENGTH)
      ID_VALID_CHARS ID_SUBSTITUTOR)) list
  refine ⟨n, hn, fun fuel hfuel => ?_, habsent, hbelow⟩
  exact do_while_found _ list n (by omega) habsent fuel 0 (Nat.zero_le _) (by omega)
    (fun m _ hm => hbelow m hm)

/-! ## The reconciler: claims -/

/-- C1. For a duplicate-free desired list and a duplicate-free current list,
with `strcmp` as the order, the outputs of `create_sync_lists` satisfy
`(current ∪ to_add) \ to_remove = desired` as sets: a key is in `current` or in
`to_add`, and not in `to_remove`, exactly when it is in `desired`. -/
theorem C1_reconcile_reaches_desired (desired current : List String)
    (hd : desired.Nodup) (hc : current.Nodup) (x : String) :
    ((x ∈ current ∨ x ∈ (create_sync_lists current desired strcmp).1) ∧
      x ∉ (create_sync_lists current desired strcmp).2) ↔ x ∈ desired := by
  have h := create_sync_lists_mem strcmp_isTotalCmp current desired hc hd
  rw [h.1 x, h.2 x]
  tauto

/-- C1, the scenario of the specification: desired `["b","a","c"]` and current
`{"a","d"}` give `to_add = {"b","c"}` (as the list `["c","b"]`) and
`to_remove = {"d"}`, and applying them to the current set gives the desired
one. -/
theorem C1_reconcile_reaches_desired_witness :
    create_sync_lists ["a", "d"] ["b", "a", "c"] strcmp = (["c", "b"], ["d"]) ∧
    ∀ x : String,
      ((x ∈ ["a", "d"] ∨ x ∈ (create_sync_lists ["a", "d"] ["b", "a", "c"] strcmp).1) ∧
        x ∉ (create_sync_lists ["a", "d"] ["b", "a", "c"] strcmp).2) ↔ x ∈ ["b", "a", "c"] :=
  ⟨by simp [create_sync_lists, create_sync_lists_while, g_slist_sort, strcmp, strcmp_chars],
   fun x => C1_reconcile_reaches_desired ["b", "a", "c"] ["a", "d"] (by decide) (by decide) x⟩

/-- C2. For duplicate-free inputs the outputs of `create_sync_lists` are a
minimal edit set: no key is in both `to_add` and `to_remove`, no key of
`to_add` is a key of `current`, and every key of `to_remove` is a key of
`current`. -/
theorem C2_minimal_edit_set (desired current : List String)
    (hd : desired.Nodup) (hc : current.Nodup) :
    (∀ x, ¬ (x ∈ (create_sync_lists current desired strcmp).1 ∧
             x ∈ (create_sync_lists current desired strcmp).2)) ∧
    (∀ x, x ∈ (create_sync_lists current desired strcmp).1 → x ∉ current) ∧
    (∀ x, x ∈ (create_sync_lists current desired strcmp).2 → x ∈ current) := by
  have h := create_sync_lists_mem strcmp_isTotalCmp current desired hc hd
  refine ⟨fun x => ?_, fun x => ?_, fun x => ?_⟩
  · rw [h.1 x, h.2 x]; tauto
  · rw [h.1 x]; tauto
  · rw [h.2 x]; tauto

/-- C2 at desired `["b","a","c"]`, current `["a","d"]`. -/
theorem C2_minimal_edit_set_witness :
    (∀ x, ¬ (x ∈ (create_sync_lists ["a", "d"] ["b", "a", "c"] strcmp).1 ∧
             x ∈ (create_sync_lists ["a", "d"] ["b", "a", "c"] strcmp).2)) ∧
    (∀ x, x ∈ (create_sync_lists ["a", "d"] ["b", "a", "c"] strcmp).1 → x ∉ ["a", "d"]) ∧
    (∀ x, x ∈ (create_sync_lists ["a", "d"] ["b", "a", "c"] strcmp).2 → x ∈ ["a", "d"]) :=
  C2_minimal_edit_set ["b", "a", "c"] ["a", "d"] (by decide) (by decide)

/-- C3. Reconciliation is idempotent: for a duplicate-free desired list `D` and
a current set `C`, let `(to_add, to_remove) = create_sync_lists C D` and let
`C'` list, without repetition, the set `(C ∪ to_add) \ to_remove`.  Then
`create_sync_lists C' D` returns an empty `to_add` and an empty `to_remove`. -/
theorem C3_reconcile_idempotent (D C C' : List String)
    (hD : D.Nodup) (hC : C.Nodup) (hC' : C'.Nodup)
    (happly : ∀ x, x ∈ C' ↔
      ((x ∈ C ∨ x ∈ (create_sync_lists C D strcmp).1) ∧
        x ∉ (create_sync_lists C D strcmp).2)) :
    create_sync_lists C' D strcmp = ([], []) := by
  have h0 := create_sync_lists_mem strcmp_isTotalCmp C D hC hD
  have hmem : ∀ x, x ∈ C' ↔ x ∈ D := fun x => by
    rw [happly x, h0.1 x, h0.2 x]
    tauto
  have h := create_sync_lists_mem strcmp_isTotalCmp C' D hC' hD
  have h1 : (create_sync_lists C' D strcmp).1 = [] := by
    apply List.eq_nil_iff_forall_not_mem.2
    intro x hx
    have := (h.1 x).1 hx
    exact this.2 ((hmem x).2 this.1)
  have h2 : (create_sync_lists C' D strcmp).2 = [] := by
    apply List.eq_nil_iff_forall_not_mem.2
    intro x hx
    have := (h.2 x).1 hx
    exact this.2 ((hmem x).1 this.1)
  exact Prod.ext h1 h2

/-- C3 at `D = ["b","a","c"]`, `C = ["a","d"]`, `C' = ["a","c","b"]`. -/
theorem C3_reconcile_idempotent_witness :
    create_sync_lists ["a", "c", "b"] ["b", "a", "c"] strcmp = ([], []) :=
  C3_reconcile_idempotent ["b", "a", "c"] ["a", "d"] ["a", "c", "b"]
    (by decide) (by decide) (by decide)
    (by
      intro x
      have e : create_sync_lists ["a", "d"] ["b", "a", "c"] strcmp = (["c", "b"], ["d"]) := by
        simp [create_sync_lists, create_sync_lists_while, g_slist_sort, strcmp, strcmp_chars]
      rw [e]
      simp only [List.mem_cons, List.mem_singleton, List.not_mem_nil, or_false]
      constructor
      · rintro (h | h | h) <;> subst h <;> simp
      · rintro ⟨(h | h) | (h | h), h2⟩
        · exact Or.inl h
        · exact absurd h h2
        · exact Or.inr (Or.inl h)
        · exact Or.inr (Or.inr h))

/-- C4. The result of `create_sync_lists` does not depend on the order of its
inputs: for all lists and all permutations of them the outputs are the same
lists, so the `to_add` sets agree and the `to_remove` sets agree. -/
theorem C4_order_independent (desired desired' current current' : List String)
    (hd : desired'.Perm desired) (hc : current'.Perm current) :
    create_sync_lists current' desired' strcmp = create_sync_lists current desired strcmp ∧
    (∀ x, x ∈ (create_sync_lists current' desired' strcmp).1 ↔
          x ∈ (create_sync_lists current desired strcmp).1) ∧
    (∀ x, x ∈ (create_sync_lists current' desired' strcmp).2 ↔
          x ∈ (create_sync_lists current desired strcmp).2) := by
  have e : create_sync_lists current' desired' strcmp =
      create_sync_lists current desired strcmp := by
    unfold create_sync_lists
    rw [g_slist_sort_eq_of_perm strcmp_isTotalCmp hd, g_slist_sort_eq_of_perm strcmp_isTotalCmp hc]
  exact ⟨e, fun x => by rw [e], fun x => by rw [e]⟩

/-- C4 at desired `["b","a","c"]` against `["c","b","a"]` and current
`["a","d"]` against `["d","a"]`. -/
theorem C4_order_independent_witness :
    create_sync_lists ["d", "a"] ["c", "b", "a"] strcmp =
      create_sync_lists ["a", "d"] ["b", "a", "c"] strcmp :=
  (C4_order_independent ["b", "a", "c"] ["c", "b", "a"] ["a", "d"] ["d", "a"]
    (by decide) (by decide)).1

/-! ## The directory-change handler: claims -/

/-- C5. For a path ending in `.desktop` and a created or changed event the
handler classifies by presence in the availability table.  If the path is
absent it is inserted (the other paths stay) and exactly one
`plugin-module-added` is emitted; if it is present the private data are
unchanged and exactly one `plugin-module-updated` is emitted.  Hence an event
for an unknown path is classified added, the same event replayed is classified
updated, and the replay leaves the data of the first event unchanged. -/
theorem C5_created_changed_classified (priv : HDPluginConfigurationPrivate) (path : String)
    (event_type : GFileMonitorEvent)
    (hsuffix : g_str_has_suffix path ".desktop" = true)
    (hevent : event_type = GFileMonitorEvent.CREATED ∨ event_type = GFileMonitorEvent.CHANGED) :
    (path ∉ priv.available_plugins →
      hd_plugin_configuration_plugin_dir_changed priv path event_type =
        ({ priv with available_plugins := g_hash_table_insert priv.available_plugins path },
         [Effect.g_signal_emit (PluginSignal.PLUGIN_MODULE_ADDED path)]) ∧
      (∀ q, q ∈ (hd_plugin_configuration_plugin_dir_changed priv path event_type).1.available_plugins
          ↔ (q ∈ priv.available_plugins ∨ q = path))) ∧
    (path ∈ priv.available_plugins →
      hd_plugin_configuration_plugin_dir_changed priv path event_type =
        (priv, [Effect.g_signal_emit (PluginSignal.PLUGIN_MODULE_UPDATED path)])) ∧
    (path ∉ priv.available_plugins →
      (hd_plugin_configuration_plugin_dir_changed priv path event_type).2 =
        [Effect.g_signal_emit (PluginSignal.PLUGIN_MODULE_ADDED path)] ∧
      hd_plugin_configuration_plugin_dir_changed
          (hd_plugin_configuration_plugin_dir_changed priv path event_type).1 path event_type =
        ((hd_plugin_configuration_plugin_dir_changed priv path event_type).1,
         [Effect.g_signal_emit (PluginSignal.PLUGIN_MODULE_UPDATED path)])) := by
  have hpos : ∀ p : HDPluginConfigurationPrivate, path ∈ p.available_plugins →
      hd_plugin_configuration_plugin_dir_changed p path event_type =
        (p, [Effect.g_signal_emit (PluginSignal.PLUGIN_MODULE_UPDATED path)]) := by
    intro p hp
    simp [hd_plugin_configuration_plugin_dir_changed, hsuffix, hevent, g_hash_table_lookup, hp]
  have hneg : path ∉ priv.available_plugins →
      hd_plugin_configuration_plugin_dir_changed priv path event_type =
        ({ priv with available_plugins := g_hash_table_insert priv.available_plugins path },
         [Effect.g_signal_emit (PluginSignal.PLUGIN_MODULE_ADDED path)]) := by
    intro hp
    simp [hd_plugin_configuration_plugin_dir_changed, hsuffix, hevent, g_hash_table_lookup, hp]
  refine ⟨fun hp => ⟨hneg hp, fun q => ?_⟩, hpos priv, fun hp => ⟨?_, ?_⟩⟩
  · rw [hneg hp]
    exact mem_g_hash_table_insert _ _ _
  · rw [hneg hp]
  · apply hpos
    rw [hneg hp]
    exact (mem_g_hash_table_insert _ _ _).2 (Or.inr rfl)

/-- C5 in the scenario: with `/a/x.desktop` available, a changed event for the
unknown `/a/y.desktop` is classified added and makes the table
`{/a/x.desktop, /a/y.desktop}`; replayed, it is classified updated. -/
theorem C5_created_changed_classified_witness :
    (hd_plugin_configuration_plugin_dir_changed scenario_priv "/a/y.desktop"
        GFileMonitorEvent.CHANGED).1.available_plugins = ["/a/x.desktop", "/a/y.desktop"] ∧
    (hd_plugin_configuration_plugin_dir_changed scenario_priv "/a/y.desktop"
        GFileMonitorEvent.CHANGED).2 =
      [Effect.g_signal_emit (PluginSignal.PLUGIN_MODULE_ADDED "/a/y.desktop")] ∧
    hd_plugin_configuration_plugin_dir_changed
        (hd_plugin_configuration_plugin_dir_changed scenario_priv "/a/y.desktop"
          GFileMonitorEvent.CHANGED).1 "/a/y.desktop" GFileMonitorEvent.CHANGED =
      ((hd_plugin_configuration_plugin_dir_changed scenario_priv "/a/y.desktop"
          GFileMonitorEvent.CHANGED).1,
       [Effect.g_signal_emit (PluginSignal.PLUGIN_MODULE_UPDATED "/a/y.desktop")]) :=
  ⟨by decide,
   (C5_created_changed_classified scenario_priv "/a/y.desktop" GFileMonitorEvent.CHANGED
      (by decide) (Or.inr rfl)).2.2 (by decide)⟩

/-- C6. For a path ending in `.desktop` that is in the availability table, a
deleted event removes exactly that path (every other path stays available) and
emits exactly one `plugin-module-removed` for it. -/
theorem C6_deleted_known_path (priv : HDPluginConfigurationPrivate) (path : String)
    (hsuffix : g_str_has_suffix path ".desktop" = true)
    (hknown : path ∈ priv.available_plugins) :
    hd_plugin_configuration_plugin_dir_changed priv path GFileMonitorEvent.DELETED =
      ({ priv with available_plugins := g_hash_table_remove priv.available_plugins path },
       [Effect.g_signal_emit (PluginSignal.PLUGIN_MODULE_REMOVED path)]) ∧
    path ∉ (hd_plugin_configuration_plugin_dir_changed priv path
      GFileMonitorEvent.DELETED).1.available_plugins ∧
    (∀ q, q ≠ path →
      (q ∈ (hd_plugin_configuration_plugin_dir_changed priv path
          GFileMonitorEvent.DELETED).1.available_plugins ↔ q ∈ priv.available_plugins)) := by
  have _ := hknown
  have e : hd_plugin_configuration_plugin_dir_changed priv path GFileMonitorEvent.DELETED =
      ({ priv with available_plugins := g_hash_table_remove priv.available_plugins path },
       [Effect.g_signal_emit (PluginSignal.PLUGIN_MODULE_REMOVED path)]) := by
    simp [hd_plugin_configuration_plugin_dir_changed, hsuffix]
  refine ⟨e, ?_, fun q hq => ?_⟩
  · rw [e]
    simp [mem_g_hash_table_remove]
  · rw [e]
    simp [mem_g_hash_table_remove, hq]

/-- C6 in the scenario: with `{/a/x.desktop, /a/y.desktop}` available,
deleting `/a/x.desktop` leaves `{/a/y.desktop}` and emits one
`plugin-module-removed`. -/
theorem C6_deleted_known_path_witness :
    hd_plugin_configuration_plugin_dir_changed
        { scenario_priv with available_plugins := ["/a/x.desktop", "/a/y.desktop"] }
        "/a/x.desktop" GFileMonitorEvent.DELETED =
      ({ scenario_priv with available_plugins := ["/a/y.desktop"] },
       [Effect.g_signal_emit (PluginSignal.PLUGIN_MODULE_REMOVED "/a/x.desktop")]) :=
  (C6_deleted_known_path
    { scenario_priv with available_plugins := ["/a/x.desktop", "/a/y.desktop"] }
    "/a/x.desktop" (by decide) (by decide)).1

/-- C7, as the specification states it, fails: for the unknown path
`/a/q.desktop` a deleted event emits `plugin-module-removed`, so the handler
is not silent. -/
theorem C7_deleted_unknown_path_counterexample :
    g_str_has_suffix "/a/q.desktop" ".desktop" = true ∧
    "/a/q.desktop" ∉ scenario_priv.available_plugins ∧
    (hd_plugin_configuration_plugin_dir_changed scenario_priv "/a/q.desktop"
        GFileMonitorEvent.DELETED).2 =
      [Effect.g_signal_emit (PluginSignal.PLUGIN_MODULE_REMOVED "/a/q.desktop")] ∧
    (hd_plugin_configuration_plugin_dir_changed scenario_priv "/a/q.desktop"
        GFileMonitorEvent.DELETED).2 ≠ [] :=
  ⟨by decide, by decide, rfl, List.cons_ne_nil _ _⟩

/-- C7, amended. A deleted event for a `.desktop` path that is not in the
availability table leaves the private data unchanged, and exactly one
`plugin-module-removed` is emitted for the path all the same. -/
theorem C7_deleted_unknown_path (priv : HDPluginConfigurationPrivate) (path : String)
    (hsuffix : g_str_has_suffix path ".desktop" = true)
    (hunknown : path ∉ priv.available_plugins) :
    hd_plugin_configuration_plugin_dir_changed priv path GFileMonitorEvent.DELETED =
      (priv, [Effect.g_signal_emit (PluginSignal.PLUGIN_MODULE_REMOVED path)]) := by
  simp [hd_plugin_configuration_plugin_dir_changed, hsuffix,
    g_hash_table_remove_absent _ _ hunknown]

/-- C7, amended, at the unknown path `/a/q.desktop`. -/
theorem C7_deleted_unknown_path_witness :
    hd_plugin_configuration_plugin_dir_changed scenario_priv "/a/q.desktop"
        GFileMonitorEvent.DELETED =
      (scenario_priv,
       [Effect.g_signal_emit (PluginSignal.PLUGIN_MODULE_REMOVED "/a/q.desktop")]) :=
  C7_deleted_unknown_path scenario_priv "/a/q.desktop" (by decide) (by decide)

/-- C8. For every event type and every path that does not end in `.desktop`
the handler ignores the event: the private data, and so the availability
table, are unchanged and nothing is emitted. -/
theorem C8_other_suffix_ignored (priv : HDPluginConfigurationPrivate) (path : String)
    (event_type : GFileMonitorEvent)
    (hsuffix : g_str_has_suffix path ".desktop" = false) :
    hd_plugin_configuration_plugin_dir_changed priv path event_type = (priv, []) := by
  simp [hd_plugin_configuration_plugin_dir_changed, hsuffix]

/-- C8 at the temporary file `/a/x.desktop.dpkg-new` and a created event. -/
theorem C8_other_suffix_ignored_witness :
    hd_plugin_configuration_plugin_dir_changed scenario_priv "/a/x.desktop.dpkg-new"
        GFileMonitorEvent.CREATED = (scenario_priv, []) :=
  C8_other_suffix_ignored scenario_priv "/a/x.desktop.dpkg-new" GFileMonitorEvent.CREATED
    (by decide)

/-! ## The configuration-loaded handler: claims -/

/-- C9. After a successful configure (the key file has the `X-PluginManager`
group and a plugin directory list) the configured directories are the listed
ones, each stripped of surrounding whitespace, and the availability table
holds exactly the file names `g_build_filename (dir, name)` of a configured
directory `dir` that can be opened and a name in it ending in `.desktop`.
The right-hand side mentions neither the previous table nor the position of a
directory in the list: entries known before are not retained, and a directory
that cannot be opened contributes nothing and does not stop the scan of the
directories after it.  (`g_build_filename_dir_name`: the file name is
`dir/name` for a directory without trailing separator.) -/
theorem C9_configure_availability (w : World) (priv : HDPluginConfigurationPrivate)
    (keyfile : GKeyFile) (directories : List String)
    (hgroup : keyfile.g_key_file_has_group HD_PLUGIN_CONFIGURATION_CONFIG_GROUP = true)
    (hdirs : keyfile.g_key_file_get_string_list HD_PLUGIN_CONFIGURATION_CONFIG_GROUP
      w.HD_DESKTOP_CONFIG_KEY_PLUGIN_DIR = some directories) :
    (hd_plugin_configuration_configuration_loaded w priv keyfile).1.plugin_dirs =
      some (directories.map g_strstrip) ∧
    ∀ path,
      path ∈ (hd_plugin_configuration_configuration_loaded w priv keyfile).1.available_plugins ↔
        ∃ dir ∈ directories.map g_strstrip, ∃ names, w.g_dir_open dir = some names ∧
          ∃ name ∈ names, g_str_has_suffix name ".desktop" = true ∧
            path = g_build_filename [dir, name] := by
  have e : (hd_plugin_configuration_configuration_loaded w priv keyfile).1.available_plugins =
      (scan_plugin_dirs w (directories.map g_strstrip) []).1 ∧
      (hd_plugin_configuration_configuration_loaded w priv keyfile).1.plugin_dirs =
        some (directories.map g_strstrip) := by
    simp only [hd_plugin_configuration_configuration_loaded, hgroup, hdirs,
      hd_plugin_configuration_load_plugin_configuration, g_hash_table_remove_all]
    cases keyfile.g_key_file_get_string HD_PLUGIN_CONFIGURATION_CONFIG_GROUP
      HD_PLUGIN_CONFIGURATION_CONFIG_KEY_PLUGIN_CONFIGURATION <;> exact ⟨rfl, rfl⟩
  refine ⟨e.2, fun path => ?_⟩
  rw [e.1, mem_scan_plugin_dirs]
  simp only [List.not_mem_nil, false_or]

/-- C9 in the scenario: `configure (["/a"])` with `/a` holding `x.desktop`
gives `{/a/x.desktop}`, whatever was available before (here the stale
`/old/z.desktop`). -/
theorem C9_configure_availability_witness :
    (hd_plugin_configuration_configuration_loaded scenario_world
        { scenario_priv with available_plugins := ["/old/z.desktop"] }
        scenario_keyfile).1.available_plugins = ["/a/x.desktop"] ∧
    (hd_plugin_configuration_configuration_loaded scenario_world
        { scenario_priv with available_plugins := ["/old/z.desktop"] }
        scenario_keyfile).1.plugin_dirs = some (["/a"].map g_strstrip) :=
  ⟨by decide,
   (C9_configure_availability scenario_world
     { scenario_priv with available_plugins := ["/old/z.desktop"] }
     scenario_keyfile ["/a"] (by decide) (by decide)).1⟩

/-- C10. Running the configuration-loaded handler again with the same key file
in an unchanged world is idempotent: the private data after the second run,
and so the availability table, equal those after the first, and the run emits
no `plugin-module-added`, `plugin-module-removed` or `plugin-module-updated`
(no run of the handler emits one). -/
theorem C10_configure_idempotent (w : World) (priv : HDPluginConfigurationPrivate)
    (keyfile : GKeyFile) :
    (hd_plugin_configuration_configuration_loaded w
        (hd_plugin_configuration_configuration_loaded w priv keyfile).1
        keyfile).1.available_plugins =
      (hd_plugin_configuration_configuration_loaded w priv keyfile).1.available_plugins ∧
    (hd_plugin_configuration_configuration_loaded w
        (hd_plugin_configuration_configuration_loaded w priv keyfile).1 keyfile).1 =
      (hd_plugin_configuration_configuration_loaded w priv keyfile).1 ∧
    (∀ e ∈ (hd_plugin_configuration_configuration_loaded w
        (hd_plugin_configuration_configuration_loaded w priv keyfile).1 keyfile).2,
      ∀ desktop_file,
        e ≠ Effect.g_signal_emit (PluginSignal.PLUGIN_MODULE_ADDED desktop_file) ∧
        e ≠ Effect.g_signal_emit (PluginSignal.PLUGIN_MODULE_REMOVED desktop_file) ∧
        e ≠ Effect.g_signal_emit (PluginSignal.PLUGIN_MODULE_UPDATED desktop_file)) := by
  have hstate : (hd_plugin_configuration_configuration_loaded w
        (hd_plugin_configuration_configuration_loaded w priv keyfile).1 keyfile).1 =
      (hd_plugin_configuration_configuration_loaded w priv keyfile).1 := by
    obtain ⟨config_file, items_config_file, items_key_file, plugin_dirs, plugin_dir_files,
      plugin_dir_monitors, available_plugins, startup⟩ := priv
    cases hg : keyfile.g_key_file_has_group HD_PLUGIN_CONFIGURATION_CONFIG_GROUP
    · cases plugin_dirs <;>
        simp [hd_plugin_configuration_configuration_loaded, g_hash_table_remove_all, hg]
    · cases hl : keyfile.g_key_file_get_string_list HD_PLUGIN_CONFIGURATION_CONFIG_GROUP
        w.HD_DESKTOP_CONFIG_KEY_PLUGIN_DIR
      · cases plugin_dirs <;>
          simp [hd_plugin_configuration_configuration_loaded, g_hash_table_remove_all, hg, hl]
      · cases hs : keyfile.g_key_file_get_string HD_PLUGIN_CONFIGURATION_CONFIG_GROUP
          HD_PLUGIN_CONFIGURATION_CONFIG_KEY_PLUGIN_CONFIGURATION <;>
        cases plugin_dirs <;>
          simp [hd_plugin_configuration_configuration_loaded, g_hash_table_remove_all, hg, hl, hs,
            hd_plugin_configuration_load_plugin_configuration]
  refine ⟨by rw [hstate], hstate, ?_⟩
  exact configuration_loaded_effects w _ keyfile

/-! ## Configuration loading: claims -/

/-- C11, as the specification states it, fails: with `/a` watched and
`/a/x.desktop` available, a reload whose key file has no `X-PluginManager`
group ends with no watched directory and an empty availability table. -/
theorem C11_missing_group_counterexample :
    g_key_file_new.g_key_file_has_group HD_PLUGIN_CONFIGURATION_CONFIG_GROUP = false ∧
    scenario_priv.plugin_dirs = some ["/a"] ∧
    scenario_priv.available_plugins = ["/a/x.desktop"] ∧
    (hd_plugin_configuration_load_configuration scenario_world_no_group
      scenario_priv).1.plugin_dirs = none ∧
    (hd_plugin_configuration_load_configuration scenario_world_no_group
      scenario_priv).1.plugin_dir_monitors = [] ∧
    (hd_plugin_configuration_load_configuration scenario_world_no_group
      scenario_priv).1.available_plugins = [] ∧
    (hd_plugin_configuration_load_configuration scenario_world_no_group
      scenario_priv).1.available_plugins ≠ scenario_priv.available_plugins :=
  ⟨rfl, rfl, rfl, rfl, rfl, rfl, by decide⟩

/-- C11, amended. When the key file has no `X-PluginManager` group the handler
stops after the old configuration has been freed: the monitor of every
watched directory is cancelled and the directory arrays are cleared, the
items configuration file is dropped and the availability table is emptied.
No directory is opened or monitored and no signal is emitted by the handler;
the items key file, the configuration file and the startup flag are as
before.  A reload that loads such a key file ends in that state. -/
theorem C11_missing_group (w : World) (priv : HDPluginConfigurationPrivate)
    (keyfile : GKeyFile)
    (hgroup : keyfile.g_key_file_has_group HD_PLUGIN_CONFIGURATION_CONFIG_GROUP = false) :
    (hd_plugin_configuration_configuration_loaded w priv keyfile).1.plugin_dirs = none ∧
    (priv.plugin_dirs ≠ none →
      (hd_plugin_configuration_configuration_loaded w priv keyfile).1.plugin_dir_monitors = [] ∧
      (hd_plugin_configuration_configuration_loaded w priv keyfile).1.plugin_dir_files = []) ∧
    (hd_plugin_configuration_configuration_loaded w priv keyfile).1.items_config_file = none ∧
    (hd_plugin_configuration_configuration_loaded w priv keyfile).1.available_plugins = [] ∧
    (hd_plugin_configuration_configuration_loaded w priv keyfile).1.items_key_file =
      priv.items_key_file ∧
    (hd_plugin_configuration_configuration_loaded w priv keyfile).1.config_file =
      priv.config_file ∧
    (hd_plugin_configuration_configuration_loaded w priv keyfile).1.startup = priv.startup ∧
    (hd_plugin_configuration_configuration_loaded w priv keyfile).2 =
      (match priv.plugin_dirs with
       | some dirs => (dirs.zip priv.plugin_dir_monitors).map
          (fun entry => Effect.g_file_monitor_cancel entry.2)
       | none => []) ∧
    (w.hd_config_file_load_file priv.config_file = some keyfile →
      (hd_plugin_configuration_load_configuration w priv).1 =
        (hd_plugin_configuration_configuration_loaded w priv keyfile).1) := by
  obtain ⟨config_file, items_config_file, items_key_file, plugin_dirs, plugin_dir_files,
    plugin_dir_monitors, available_plugins, startup⟩ := priv
  refine ⟨?_, ?_, ?_, ?_, ?_, ?_, ?_, ?_, ?_⟩
  · cases plugin_dirs <;>
      simp [hd_plugin_configuration_configuration_loaded, hgroup]
  · intro h
    cases plugin_dirs with
    | none => exact absurd rfl h
    | some dirs => simp [hd_plugin_configuration_configuration_loaded, hgroup]
  · cases plugin_dirs <;>
      simp [hd_plugin_configuration_configuration_loaded, hgroup]
  · cases plugin_dirs <;>
      simp [hd_plugin_configuration_configuration_loaded, hgroup, g_hash_table_remove_all]
  · cases plugin_dirs <;>
      simp [hd_plugin_configuration_configuration_loaded, hgroup]
  · cases plugin_dirs <;>
      simp [hd_plugin_configuration_configuration_loaded, hgroup]
  · cases plugin_dirs <;>
      simp [hd_plugin_configuration_configuration_loaded, hgroup]
  · cases plugin_dirs <;>
      simp [hd_plugin_configuration_configuration_loaded, hgroup]
  · intro hload
    simp only [hd_plugin_configuration_load_configuration, hload]

/-- C11, amended, in the scenario: the reload cancels the monitor of `/a` and
leaves no directory, no items configuration file and no available plugin. -/
theorem C11_missing_group_witness :
    (hd_plugin_configuration_configuration_loaded scenario_world scenario_priv
      g_key_file_new).1.plugin_dirs = none ∧
    (hd_plugin_configuration_configuration_loaded scenario_world scenario_priv
      g_key_file_new).1.available_plugins = [] ∧
    (hd_plugin_configuration_configuration_loaded scenario_world scenario_priv
      g_key_file_new).2 = [Effect.g_file_monitor_cancel "/a"] :=
  ⟨(C11_missing_group scenario_world scenario_priv g_key_file_new rfl).1,
   (C11_missing_group scenario_world scenario_priv g_key_file_new rfl).2.2.2.1,
   rfl⟩

/-- C12. When the configuration file yields no key file, a reload changes
nothing: the private data (watched directories, availability table, items
configuration file, items key file) are as before and nothing is emitted, in
particular no `configuration-loaded`. -/
theorem C12_unloadable_configuration (w : World) (priv : HDPluginConfigurationPrivate)
    (hload : w.hd_config_file_load_file priv.config_file = none) :
    hd_plugin_configuration_load_configuration w priv = (priv, []) := by
  simp only [hd_plugin_configuration_load_configuration, hload]

/-- C12 in the scenario, where the configuration file cannot be loaded. -/
theorem C12_unloadable_configuration_witness :
    hd_plugin_configuration_load_configuration scenario_world scenario_priv =
      (scenario_priv, []) :=
  C12_unloadable_configuration scenario_world scenario_priv rfl

/-- C13, as the specification states it, fails: when the first load does not
succeed (the configuration file yields no key file, nothing is loaded or
emitted) the startup flag is nevertheless false after
`hd_plugin_configuration_run` returns. -/
theorem C13_startup_flag_counterexample :
    scenario_world.hd_config_file_load_file
      (hd_config_file_new "/etc/hildon-desktop" "/home/user/.config" "home.conf") = none ∧
    (hd_plugin_configuration_run scenario_world
      (hd_plugin_configuration_new
        (hd_config_file_new "/etc/hildon-desktop" "/home/user/.config" "home.conf"))).2 = [] ∧
    hd_plugin_configuration_get_in_startup
      (hd_plugin_configuration_run scenario_world
        (hd_plugin_configuration_new
          (hd_config_file_new "/etc/hildon-desktop" "/home/user/.config" "home.conf"))).1 =
      false :=
  ⟨rfl, rfl, rfl⟩

/-- C13, amended. The startup flag reported by
`hd_plugin_configuration_get_in_startup` is true from construction until
`hd_plugin_configuration_run` returns and false from then on, whether or not
the load succeeded: it is true after construction; the load inside
`hd_plugin_configuration_run` and every reload leave it as it is, so it is
true while the handlers of the initial load run; no sequence of calls without
`hd_plugin_configuration_run` changes it; it is false after
`hd_plugin_configuration_run`; once false it stays false under every sequence
of calls. -/
theorem C13_startup_flag (config_file : HDConfigFile) (w : World)
    (priv : HDPluginConfigurationPrivate) (calls : List (World × PluginConfigurationCall)) :
    hd_plugin_configuration_get_in_startup (hd_plugin_configuration_new config_file) = true ∧
    hd_plugin_configuration_get_in_startup
      (hd_plugin_configuration_load_configuration w priv).1 =
      hd_plugin_configuration_get_in_startup priv ∧
    hd_plugin_configuration_get_in_startup (hd_plugin_configuration_run w priv).1 = false ∧
    ((∀ call ∈ calls, call.2 ≠ PluginConfigurationCall.run) →
      hd_plugin_configuration_get_in_startup (plugin_configuration_steps priv calls) =
        hd_plugin_configuration_get_in_startup priv) ∧
    (hd_plugin_configuration_get_in_startup priv = false →
      hd_plugin_configuration_get_in_startup (plugin_configuration_steps priv calls) =
        false) := by
  refine ⟨rfl, load_configuration_startup w priv, rfl, ?_, ?_⟩
  · intro hcalls
    unfold hd_plugin_configuration_get_in_startup plugin_configuration_steps
    induction calls generalizing priv with
    | nil => rfl
    | cons c cs ih =>
      rw [List.foldl_cons, ih _ (fun call h => hcalls call (List.mem_cons_of_mem _ h)),
        plugin_configuration_step_startup, if_neg (hcalls c (List.mem_cons_self _ _))]
  · intro hfalse
    unfold hd_plugin_configuration_get_in_startup plugin_configuration_steps at *
    induction calls generalizing priv with
    | nil => exact hfalse
    | cons c cs ih =>
      rw [List.foldl_cons]
      apply ih
      rw [plugin_configuration_step_startup]
      split
      · rfl
      · exact hfalse

/-- C13, amended, in the scenario: after construction a directory change and
a reload leave the flag true, and after `hd_plugin_configuration_run` a
reload leaves it false. -/
theorem C13_startup_flag_witness :
    hd_plugin_configuration_get_in_startup
      (plugin_configuration_steps (hd_plugin_configuration_new scenario_priv.config_file)
        [(scenario_world, PluginConfigurationCall.plugin_dir_changed "/a/y.desktop"
            GFileMonitorEvent.CREATED),
         (scenario_world_no_group, PluginConfigurationCall.config_file_changed)]) = true ∧
    hd_plugin_configuration_get_in_startup
      (plugin_configuration_steps scenario_priv
        [(scenario_world_no_group, PluginConfigurationCall.config_file_changed)]) = false :=
  ⟨((C13_startup_flag scenario_priv.config_file scenario_world
      (hd_plugin_configuration_new scenario_priv.config_file)
      [(scenario_world, PluginConfigurationCall.plugin_dir_changed "/a/y.desktop"
          GFileMonitorEvent.CREATED),
       (scenario_world_no_group, PluginConfigurationCall.config_file_changed)]).2.2.2.1
      (by
        intro call h
        simp only [List.mem_cons, List.mem_singleton, List.not_mem_nil, or_false] at h
        rcases h with h | h <;> subst h <;> simp)).trans rfl,
   (C13_startup_flag scenario_priv.config_file scenario_world scenario_priv
      [(scenario_world_no_group, PluginConfigurationCall.config_file_changed)]).2.2.2.2 rfl⟩

/-- C14. After every run of
`hd_plugin_configuration_load_plugin_configuration` the items key file is
present: it is the key file loaded when an items configuration file is
configured and loads, and an empty key file when none is configured or when
it yields no key file.  The function always returns, and it emits
`items-configuration-loaded` exactly once, with that key file. -/
theorem C14_items_configuration_loaded (w : World) (priv : HDPluginConfigurationPrivate) :
    ∃ items_key_file : GKeyFile,
      (hd_plugin_configuration_load_plugin_configuration w priv).1.items_key_file =
        some items_key_file ∧
      (hd_plugin_configuration_load_plugin_configuration w priv).2 =
        [Effect.g_object_notify "plugin-config-key-file",
         Effect.g_signal_emit (PluginSignal.ITEMS_CONFIGURATION_LOADED items_key_file)] ∧
      (∀ file keyfile, priv.items_config_file = some file →
        w.hd_config_file_load_file file = some keyfile → items_key_file = keyfile) ∧
      (priv.items_config_file = none → items_key_file = g_key_file_new) ∧
      (∀ file, priv.items_config_file = some file →
        w.hd_config_file_load_file file = none → items_key_file = g_key_file_new) := by
  unfold hd_plugin_configuration_load_plugin_configuration
  cases hfile : priv.items_config_file with
  | none =>
    refine ⟨g_key_file_new, rfl, rfl, ?_, fun _ => rfl, ?_⟩
    · intro file keyfile h; cases h
    · intro file h; cases h
  | some file =>
    cases hload : w.hd_config_file_load_file file with
    | none =>
      refine ⟨g_key_file_new, ?_, ?_, ?_, ?_, ?_⟩
      · simp only [hload]
      · simp only [hload]
      · intro f k hf hk
        cases hf
        rw [hload] at hk
        cases hk
      · intro h; cases h
      · intro f hf hk; rfl
    | some keyfile =>
      refine ⟨keyfile, ?_, ?_, ?_, ?_, ?_⟩
      · simp only [hload]
      · simp only [hload]
      · intro f k hf hk
        cases hf
        rw [hload] at hk
        cases hk
        rfl
      · intro h; cases h
      · intro f hf hk
        cases hf
        rw [hload] at hk
        cases hk

/-- C14 in the scenario, where no items configuration file is configured: the
items key file becomes the empty key file, which is emitted. -/
theorem C14_items_configuration_loaded_witness :
    (hd_plugin_configuration_load_plugin_configuration scenario_world
      scenario_priv).1.items_key_file = some g_key_file_new ∧
    (hd_plugin_configuration_load_plugin_configuration scenario_world scenario_priv).2 =
      [Effect.g_object_notify "plugin-config-key-file",
       Effect.g_signal_emit (PluginSignal.ITEMS_CONFIGURATION_LOADED g_key_file_new)] := by
  obtain ⟨items_key_file, h1, h2, _, h4, _⟩ :=
    C14_items_configuration_loaded scenario_world scenario_priv
  have e : items_key_file = g_key_file_new := h4 rfl
  subst e
  exact ⟨h1, h2⟩

/-- C15. `hd_plugin_configuration_store_items_key_file` returns false and
saves nothing when no items configuration file is configured; when one is
configured it saves the items key file to it, once, and returns exactly what
`hd_config_file_save_file` returns. -/
theorem C15_store_items_key_file
    (hd_config_file_save_file : HDConfigFile → Option GKeyFile → Bool)
    (priv : HDPluginConfigurationPrivate) :
    (priv.items_config_file = none →
      hd_plugin_configuration_store_items_key_file hd_config_file_save_file priv =
        (false, [])) ∧
    (∀ file, priv.items_config_file = some file →
      hd_plugin_configuration_store_items_key_file hd_config_file_save_file priv =
        (hd_config_file_save_file file priv.items_key_file,
         [(file, priv.items_key_file)])) := by
  constructor
  · intro h
    simp only [hd_plugin_configuration_store_items_key_file, h]
  · intro file h
    simp only [hd_plugin_configuration_store_items_key_file, h]

/-- C15 in the scenario, where no items configuration file is configured:
the result is false even if every save would succeed. -/
theorem C15_store_items_key_file_witness :
    hd_plugin_configuration_store_items_key_file (fun _ _ => true) scenario_priv =
      (false, []) :=
  (C15_store_items_key_file (fun _ _ => true) scenario_priv).1 rfl

/-! ## Plugin modules: claims -/

/-- C16. `hd_plugin_module_load` succeeds if and only if the module path is
set (not `NULL`), `g_module_open` opens the library at that path, and both
`hd_plugin_module_load` and `hd_plugin_module_unload` resolve in it.  The
entry point stored in `load` is called exactly once when loading succeeds and
not at all when it fails. -/
theorem C16_load_succeeds_iff (g_module_open : String → Option GModule)
    (priv : HDPluginModulePrivate) :
    ((hd_plugin_module_load g_module_open priv).2.1 = true ↔
      ∃ path library load unload,
        priv.path = some path ∧ g_module_open path = some library ∧
        g_module_symbol library "hd_plugin_module_load" = some load ∧
        g_module_symbol library "hd_plugin_module_unload" = some unload) ∧
    ((hd_plugin_module_load g_module_open priv).2.1 = true →
      (hd_plugin_module_load g_module_open priv).2.2.count ModuleEffect.call_load = 1) ∧
    ((hd_plugin_module_load g_module_open priv).2.1 = false →
      (hd_plugin_module_load g_module_open priv).2.2.count ModuleEffect.call_load = 0) := by
  unfold hd_plugin_module_load
  cases hpath : priv.path with
  | none => simp
  | some path =>
    cases hopen : g_module_open path with
    | none => simp [hopen]
    | some library =>
      cases hload : g_module_symbol library "hd_plugin_module_load" with
      | none => simp [hopen, hload]
      | some load =>
        cases hunload : g_module_symbol library "hd_plugin_module_unload" with
        | none => simp [hopen, hload, hunload]
        | some unload =>
          have hc := (call_entry_point_count load
            { path := some path, library := some library, gtypes := priv.gtypes,
              load := some load, unload := some unload }).1
          simp [hopen, hload, hunload, hc]

/-- C16 at the library of the scenario: loading succeeds and the entry point
is called once. -/
theorem C16_load_succeeds_iff_witness :
    (hd_plugin_module_load scenario_g_module_open
      (hd_plugin_module_new "/usr/lib/plugin.so")).2.1 = true ∧
    (hd_plugin_module_load scenario_g_module_open
      (hd_plugin_module_new "/usr/lib/plugin.so")).2.2.count ModuleEffect.call_load = 1 :=
  ⟨by decide,
   (C16_load_succeeds_iff scenario_g_module_open
      (hd_plugin_module_new "/usr/lib/plugin.so")).2.1 (by decide)⟩

/-- C17. For a library that opens but lacks `hd_plugin_module_load` or
`hd_plugin_module_unload`, `hd_plugin_module_load` returns failure after
closing the library it opened, exactly once: it opens, closes and does
nothing else, so the open library handles after the call are those before
it. -/
theorem C17_missing_symbol_closes (g_module_open : String → Option GModule)
    (priv : HDPluginModulePrivate) (path : String) (library : GModule)
    (hpath : priv.path = some path) (hopen : g_module_open path = some library)
    (hmissing : g_module_symbol library "hd_plugin_module_load" = none ∨
      g_module_symbol library "hd_plugin_module_unload" = none) :
    (hd_plugin_module_load g_module_open priv).2.1 = false ∧
    (hd_plugin_module_load g_module_open priv).2.2 =
      [ModuleEffect.g_module_open path (some library), ModuleEffect.g_module_close library] ∧
    (hd_plugin_module_load g_module_open priv).2.2.count
      (ModuleEffect.g_module_close library) = 1 ∧
    (∀ handles : List GModule,
      g_module_handles handles (hd_plugin_module_load g_module_open priv).2.2 = handles ∧
      (g_module_handles handles (hd_plugin_module_load g_module_open priv).2.2).length =
        handles.length) := by
  have heffects : (hd_plugin_module_load g_module_open priv).2.1 = false ∧
      (hd_plugin_module_load g_module_open priv).2.2 =
        [ModuleEffect.g_module_open path (some library),
         ModuleEffect.g_module_close library] := by
    unfold hd_plugin_module_load
    simp only [hpath, hopen]
    cases hload : g_module_symbol library "hd_plugin_module_load" with
    | none => exact ⟨rfl, rfl⟩
    | some load =>
      cases hunload : g_module_symbol library "hd_plugin_module_unload" with
      | none => exact ⟨rfl, rfl⟩
      | some unload =>
        rcases hmissing with h | h
        · rw [hload] at h; cases h
        · rw [hunload] at h; cases h
  have hhandles : ∀ handles : List GModule,
      g_module_handles handles
        [ModuleEffect.g_module_open path (some library),
         ModuleEffect.g_module_close library] = handles := by
    intro handles
    simp [g_module_handles]
  refine ⟨heffects.1, heffects.2, ?_, fun handles => ?_⟩
  · rw [heffects.2]
    simp
  · rw [heffects.2, hhandles handles]
    exact ⟨rfl, rfl⟩

/-- C17 at the library of the scenario that lacks `hd_plugin_module_unload`. -/
theorem C17_missing_symbol_closes_witness :
    (hd_plugin_module_load scenario_g_module_open
      (hd_plugin_module_new "/usr/lib/broken.so")).2.1 = false ∧
    (hd_plugin_module_load scenario_g_module_open
      (hd_plugin_module_new "/usr/lib/broken.so")).2.2 =
      [ModuleEffect.g_module_open "/usr/lib/broken.so" (some scenario_broken_library),
       ModuleEffect.g_module_close scenario_broken_library] :=
  ⟨(C17_missing_symbol_closes scenario_g_module_open
      (hd_plugin_module_new "/usr/lib/broken.so") "/usr/lib/broken.so"
      scenario_broken_library rfl (by decide) (Or.inr (by decide))).1,
   (C17_missing_symbol_closes scenario_g_module_open
      (hd_plugin_module_new "/usr/lib/broken.so") "/usr/lib/broken.so"
      scenario_broken_library rfl (by decide) (Or.inr (by decide))).2.1⟩

/-- C18. One type per module.  With a type registered,
`hd_plugin_module_add_type` changes nothing, and so does every sequence of
calls of it.  On a module without a registered type a sequence of calls
registers its first type and drops the others.  So a list of at most one
registered type stays one, after every sequence of calls. -/
theorem C18_one_type_per_module (priv : HDPluginModulePrivate) (types : List GType) :
    (priv.gtypes ≠ [] → ∀ type, hd_plugin_module_add_type priv type = (priv, [])) ∧
    (priv.gtypes ≠ [] → call_entry_point priv types = (priv, [])) ∧
    (priv.gtypes = [] → ∀ type rest, types = type :: rest →
      (call_entry_point priv types).1.gtypes = [type]) ∧
    (priv.gtypes.length ≤ 1 → (call_entry_point priv types).1.gtypes.length ≤ 1) := by
  have hfirst : priv.gtypes = [] → ∀ type rest, types = type :: rest →
      (call_entry_point priv types).1.gtypes = [type] := by
    intro hempty type rest htypes
    subst htypes
    have hadd : hd_plugin_module_add_type priv type =
        ({ priv with gtypes := [type] }, [ModuleEffect.g_type_set_qdata type priv.path]) := by
      simp [hd_plugin_module_add_type, hempty]
    simp only [call_entry_point, hadd]
    rw [call_entry_point_registered rest _ (by simp)]
  refine ⟨?_, call_entry_point_registered types priv, hfirst, ?_⟩
  · intro h type
    simp [hd_plugin_module_add_type, h]
  · intro hlen
    by_cases hempty : priv.gtypes = []
    · cases types with
      | nil => simp [call_entry_point, hempty]
      | cons type rest => rw [hfirst hempty type rest rfl]; simp
    · rw [call_entry_point_registered types priv hempty]
      exact hlen

/-- C18 on a new module and the registrations `3, 4, 5`: the type `3` is
registered, `4` and `5` are dropped. -/
theorem C18_one_type_per_module_witness :
    (call_entry_point (hd_plugin_module_new "/usr/lib/plugin.so") [3, 4, 5]).1.gtypes = [3] ∧
    call_entry_point
        (call_entry_point (hd_plugin_module_new "/usr/lib/plugin.so") [3]).1 [4, 5] =
      ((call_entry_point (hd_plugin_module_new "/usr/lib/plugin.so") [3]).1, []) :=
  ⟨(C18_one_type_per_module (hd_plugin_module_new "/usr/lib/plugin.so") [3, 4, 5]).2.2.1
      rfl 3 [4, 5] rfl,
   (C18_one_type_per_module
      (call_entry_point (hd_plugin_module_new "/usr/lib/plugin.so") [3]).1 [4, 5]).2.1
      (by decide)⟩

/-- C19. `hd_plugin_module_new_object` constructs one object of the registered
type of the module: with the property `plugin-id` set to the given id when
the type is a `HD_TYPE_PLUGIN_ITEM`, and without any property otherwise.
Without a registered type it constructs nothing and returns no object. -/
theorem C19_new_object (types : TypeSystem) (priv : HDPluginModulePrivate)
    (plugin_id : String) :
    (priv.gtypes = [] → hd_plugin_module_new_object types priv plugin_id = none) ∧
    (∀ type rest, priv.gtypes = type :: rest →
      (types.g_type_is_a type types.HD_TYPE_PLUGIN_ITEM = true →
        hd_plugin_module_new_object types priv plugin_id =
          some (g_object_new type [("plugin-id", plugin_id)])) ∧
      (types.g_type_is_a type types.HD_TYPE_PLUGIN_ITEM = false →
        hd_plugin_module_new_object types priv plugin_id =
          some (g_object_new type []))) := by
  refine ⟨fun h => ?_, fun type rest h => ⟨fun ha => ?_, fun ha => ?_⟩⟩
  · simp only [hd_plugin_module_new_object, h]
  · simp only [hd_plugin_module_new_object, h, ha, if_true]
  · simp [hd_plugin_module_new_object, h, ha]

/-- C19 in the scenario: the loaded module makes an object of type `7` with
the plugin id, a module whose type `8` is no plugin item makes one without,
and a new module makes none. -/
theorem C19_new_object_witness :
    hd_plugin_module_new_object scenario_types
        (hd_plugin_module_load scenario_g_module_open
          (hd_plugin_module_new "/usr/lib/plugin.so")).1 "applet-1" =
      some (g_object_new 7 [("plugin-id", "applet-1")]) ∧
    hd_plugin_module_new_object scenario_types
        (hd_plugin_module_add_type (hd_plugin_module_new "/usr/lib/plugin.so") 8).1
        "applet-1" = some (g_object_new 8 []) ∧
    hd_plugin_module_new_object scenario_types (hd_plugin_module_new "/usr/lib/plugin.so")
        "applet-1" = none :=
  ⟨((C19_new_object scenario_types
      (hd_plugin_module_load scenario_g_module_open
        (hd_plugin_module_new "/usr/lib/plugin.so")).1 "applet-1").2 7 [] (by decide)).1
      (by decide),
   ((C19_new_object scenario_types
      (hd_plugin_module_add_type (hd_plugin_module_new "/usr/lib/plugin.so") 8).1
      "applet-1").2 8 [] (by decide)).2 (by decide),
   (C19_new_object scenario_types (hd_plugin_module_new "/usr/lib/plugin.so")
      "applet-1").1 rfl⟩

/-- C20. `hd_plugin_module_unload` on a loaded module (one that holds a library
and an unload entry point) returns; it calls the unload entry point, exactly
once and first, and closes the library, exactly once and last.  Afterwards the
module holds no library, no `load`, no `unload` and no registered type, and
its path is unchanged. -/
theorem C20_unload (priv : HDPluginModulePrivate) (library : GModule) (unload : EntryPoint)
    (hlibrary : priv.library = some library) (hunload : priv.unload = some unload) :
    ∃ effects middle,
      hd_plugin_module_unload priv =
        some ({ path := priv.path, library := none, gtypes := [], load := none,
                unload := none }, effects) ∧
      effects = [ModuleEffect.call_unload] ++ middle ++ [ModuleEffect.g_module_close library] ∧
      (∀ e ∈ middle, ∃ type dl_filename, e = ModuleEffect.g_type_set_qdata type dl_filename) ∧
      effects.count ModuleEffect.call_unload = 1 ∧
      effects.count (ModuleEffect.g_module_close library) = 1 := by
  obtain ⟨f1, f2, _, _, f5⟩ := call_entry_point_frame unload priv
  obtain ⟨_, c2, c3⟩ := call_entry_point_count unload priv
  refine ⟨_, (call_entry_point priv unload).2, ?_, rfl, f5, ?_, ?_⟩
  · simp only [hd_plugin_module_unload, hunload, f2, hlibrary, f1]
  · simp [List.count_append, c2]
  · simp [List.count_append, c3 library]

/-- C20 in the scenario: unloading the module loaded from
`/usr/lib/plugin.so` calls the unload entry point, then closes the library,
and leaves the module as it was when new. -/
theorem C20_unload_witness :
    ∃ effects middle,
      hd_plugin_module_unload
          (hd_plugin_module_load scenario_g_module_open
            (hd_plugin_module_new "/usr/lib/plugin.so")).1 =
        some ({ path := (hd_plugin_module_load scenario_g_module_open
                  (hd_plugin_module_new "/usr/lib/plugin.so")).1.path,
                library := none, gtypes := [], load := none, unload := none }, effects) ∧
      effects = [ModuleEffect.call_unload] ++ middle ++
        [ModuleEffect.g_module_close scenario_library] ∧
      (∀ e ∈ middle, ∃ type dl_filename, e = ModuleEffect.g_type_set_qdata type dl_filename) ∧
      effects.count ModuleEffect.call_unload = 1 ∧
      effects.count (ModuleEffect.g_module_close scenario_library) = 1 :=
  C20_unload
    (hd_plugin_module_load scenario_g_module_open
      (hd_plugin_module_new "/usr/lib/plugin.so")).1
    scenario_library [] (by decide) (by decide)

/-! ## Shortcuts: claims -/

/-- C23. For every list of desired ids, with or without repetitions, and every
table of active shortcuts (a hash table, each id at most once), after
`shortcuts_sync` the ids in the table are the ids of the desired list.  Every
id of `to_remove` is out of the table and its widget has been destroyed; every
id of `to_add` is in the table, with a widget. -/
theorem C23_sync_reaches_desired (priv : HDShortcutsPrivate)
    (hkeys : (applets_keys priv.applets).Nodup) :
    (∀ id, id ∈ applets_keys (shortcuts_sync priv).1.applets ↔ id ∈ priv.current_list) ∧
    (∀ id ∈ (create_sync_lists (applets_keys priv.applets) priv.current_list strcmp).2,
      id ∉ applets_keys (shortcuts_sync priv).1.applets ∧
      ShortcutsEffect.gtk_widget_destroy id ∈ (shortcuts_sync priv).2) ∧
    (∀ id ∈ (create_sync_lists (applets_keys priv.applets) priv.current_list strcmp).1,
      id ∈ applets_keys (shortcuts_sync priv).1.applets ∧
      ∃ widget, applets_lookup (shortcuts_sync priv).1.applets id = some widget) := by
  have hk := shortcuts_sync_keys priv hkeys
  refine ⟨hk, ?_, ?_⟩
  · intro id hid
    have hm := create_sync_lists_mem_count strcmp_isTotalCmp (applets_keys priv.applets)
      priv.current_list id
    have hlt := hm.2.1 hid
    constructor
    · rw [hk id, ← List.count_pos_iff]
      have hle := List.nodup_iff_count_le_one.1 hkeys id
      omega
    · have hold : id ∈ applets_keys priv.applets := List.count_pos_iff.1 (by omega)
      simp only [shortcuts_sync]
      exact List.mem_append_left _
        ((shortcuts_sync_remove_spec _ priv.applets).2.2.2 id hid hold)
  · intro id hid
    have hm := create_sync_lists_mem_count strcmp_isTotalCmp (applets_keys priv.applets)
      priv.current_list id
    have hlt := hm.1.1 hid
    have hmem : id ∈ applets_keys (shortcuts_sync priv).1.applets := by
      rw [hk id, ← List.count_pos_iff]
      omega
    exact ⟨hmem, (mem_applets_keys_iff_lookup _ id).1 hmem⟩

/-- C23 in the scenario: with `a` and `d` active and `b, a, c` desired, after
`shortcuts_sync` the active ids are `a, c, b`. -/
theorem C23_sync_reaches_desired_witness :
    (∀ id, id ∈ applets_keys (shortcuts_sync scenario_shortcuts).1.applets ↔
      id ∈ ["b", "a", "c"]) ∧
    applets_keys (shortcuts_sync scenario_shortcuts).1.applets = ["a", "c", "b"] :=
  ⟨(C23_sync_reaches_desired scenario_shortcuts (by decide)).1,
   by simp [shortcuts_sync, scenario_shortcuts, applets_keys, create_sync_lists,
     create_sync_lists_while, g_slist_sort, strcmp, strcmp_chars, shortcuts_sync_remove,
     shortcuts_sync_add, applets_remove, applets_insert]⟩

/-- C25, as the specification states it, fails when an id outside the desired
list is active: with `a` and `d` active and the desired list `a` (whose ids are
all active), the handler for `a` stores the empty list, and the sync on that
list leaves no active id, not the previous ones minus `a`, which are `d`. -/
theorem C25_delete_event_counterexample :
    (∀ id ∈ ["a"], id ∈ applets_keys scenario_shortcuts.applets) ∧
    (delete_event_cb { scenario_shortcuts with current_list := ["a"] } "a").2 =
      [ShortcutsEffect.gconf_client_set_list "/apps/osso/hildon-home/task-shortcuts" [],
       ShortcutsEffect.gconf_client_suggest_sync, ShortcutsEffect.gtk_widget_hide "a"] ∧
    applets_keys (shortcuts_notify
      (delete_event_cb { scenario_shortcuts with current_list := ["a"] } "a").1
      (some (GConfValue.list_of_strings []))).1.applets = [] ∧
    "d" ∈ applets_keys scenario_shortcuts.applets ∧ "d" ≠ "a" := by
  refine ⟨by decide, by decide, ?_, by decide, by decide⟩
  simp [shortcuts_notify, get_shortcuts_list_from_entry, get_shortcuts_list_from_value,
    is_value_a_string_list, GConfValue.type, gconf_value_get_list_type, gconf_value_get_list,
    copy_and_convert_string_list, delete_event_cb, applets_hide,
    shortcuts_sync, scenario_shortcuts, applets_keys, create_sync_lists,
    create_sync_lists_while, g_slist_sort, strcmp, strcmp_chars, shortcuts_sync_remove,
    shortcuts_sync_add, applets_remove, applets_insert]

/-- C25, amended. For a desired list without repetitions that contains `x`
and whose ids are exactly the active ids, `delete_event_cb` for `x` stores
to GConf the desired list without `x`, the other ids in their order, and
hides the shortcut; it leaves the ids in the table as they are.  The sync on
the stored list then leaves the previous ids without `x`, each with its
previous widget, and constructs nothing. -/
theorem C25_delete_event (priv : HDShortcutsPrivate) (x : String)
    (hdesired : priv.current_list.Nodup) (hx : x ∈ priv.current_list)
    (hkeys : (applets_keys priv.applets).Nodup)
    (hactive : ∀ id, id ∈ applets_keys priv.applets ↔ id ∈ priv.current_list) :
    (delete_event_cb priv x).2 =
      [ShortcutsEffect.gconf_client_set_list priv.gconf_key (priv.current_list.erase x),
       ShortcutsEffect.gconf_client_suggest_sync, ShortcutsEffect.gtk_widget_hide x] ∧
    priv.current_list.erase x = priv.current_list.filter (fun id => id != x) ∧
    applets_keys (delete_event_cb priv x).1.applets = applets_keys priv.applets ∧
    (∀ id, id ∈ applets_keys (shortcuts_notify (delete_event_cb priv x).1
        (some (GConfValue.list_of_strings (priv.current_list.erase x)))).1.applets ↔
      (id ∈ applets_keys priv.applets ∧ id ≠ x)) ∧
    (∀ id, id ≠ x →
      applets_lookup (shortcuts_notify (delete_event_cb priv x).1
        (some (GConfValue.list_of_strings (priv.current_list.erase x)))).1.applets id =
      applets_lookup priv.applets id) ∧
    (∀ id, ShortcutsEffect.g_object_new id ∉
      (shortcuts_notify (delete_event_cb priv x).1
        (some (GConfValue.list_of_strings (priv.current_list.erase x)))).2) := by
  have _ := hx
  have hread : get_shortcuts_list_from_entry
      (some (GConfValue.list_of_strings (priv.current_list.erase x))) =
      priv.current_list.erase x := by
    simp [get_shortcuts_list_from_entry, get_shortcuts_list_from_value, is_value_a_string_list,
      GConfValue.type, gconf_value_get_list_type, gconf_value_get_list,
      copy_and_convert_string_list_eq]
  have hnotify : shortcuts_notify (delete_event_cb priv x).1
      (some (GConfValue.list_of_strings (priv.current_list.erase x))) =
      shortcuts_sync { priv with
        current_list := priv.current_list.erase x
        applets := applets_hide priv.applets x } := by
    simp only [shortcuts_notify, hread, delete_event_cb]
  have hk2 : (applets_keys (applets_hide priv.applets x)).Nodup := by
    rw [applets_keys_hide]; exact hkeys
  have herase : (priv.current_list.erase x).Nodup := hdesired.erase x
  have hmem := create_sync_lists_mem strcmp_isTotalCmp
    (applets_keys (applets_hide priv.applets x)) (priv.current_list.erase x) hk2 herase
  have hin : ∀ id, id ∈ priv.current_list.erase x ↔ (id ≠ x ∧ id ∈ priv.current_list) :=
    fun id => hdesired.mem_erase_iff
  refine ⟨?_, ?_, ?_, ?_, ?_, ?_⟩
  · simp only [delete_event_cb, g_slist_delete_found_eq]
  · exact hdesired.erase_eq_filter x
  · simp only [delete_event_cb]
    exact applets_keys_hide _ _
  · intro id
    rw [hnotify, shortcuts_sync_keys _ hk2 id]
    simp only [hin, hactive id]
    tauto
  · intro id hne
    rw [hnotify, shortcuts_sync_lookup]
    · exact applets_lookup_hide _ _ _ hne
    · intro h
      have h1 := (hmem.1 id).1 h
      simp only [applets_keys_hide] at h1
      exact h1.2 ((hactive id).2 ((hin id).1 h1.1).2)
    · intro h
      have h1 := (hmem.2 id).1 h
      simp only [applets_keys_hide] at h1
      exact h1.2 ((hin id).2 ⟨hne, (hactive id).1 h1.1⟩)
  · intro id h
    rw [hnotify, shortcuts_sync_constructs] at h
    have h1 := (hmem.1 id).1 h
    simp only [applets_keys_hide] at h1
    exact h1.2 ((hactive id).2 ((hin id).1 h1.1).2)

/-- C25, amended, in the scenario: with `a` and `d` active and desired, the
handler for `a` stores the list `d` and the sync on it leaves `d`. -/
theorem C25_delete_event_witness :
    (delete_event_cb { scenario_shortcuts with current_list := ["a", "d"] } "a").2 =
      [ShortcutsEffect.gconf_client_set_list "/apps/osso/hildon-home/task-shortcuts" ["d"],
       ShortcutsEffect.gconf_client_suggest_sync, ShortcutsEffect.gtk_widget_hide "a"] ∧
    (∀ id, id ∈ applets_keys (shortcuts_notify
        (delete_event_cb { scenario_shortcuts with current_list := ["a", "d"] } "a").1
        (some (GConfValue.list_of_strings ["d"]))).1.applets ↔
      (id ∈ ["a", "d"] ∧ id ≠ "a")) :=
  ⟨(C25_delete_event { scenario_shortcuts with current_list := ["a", "d"] } "a"
      (by decide) (by decide) (by decide) (fun _ => Iff.rfl)).1,
   (C25_delete_event { scenario_shortcuts with current_list := ["a", "d"] } "a"
      (by decide) (by decide) (by decide) (fun _ => Iff.rfl)).2.2.2.1⟩

/-- C26. `get_shortcuts_list_from_value` yields the empty list for a value
that is absent, for a value that is not a list, and for a list whose list type
is not string; for a list of strings it yields those strings, in the same
order and as many. -/
theorem C26_list_read_without_coercion (value : Option GConfValue) :
    (value = none → get_shortcuts_list_from_value value = []) ∧
    (∀ v, value = some v → v.type ≠ GConfValueType.GCONF_VALUE_LIST →
      get_shortcuts_list_from_value value = []) ∧
    (∀ v, value = some v → v.type = GConfValueType.GCONF_VALUE_LIST →
      gconf_value_get_list_type v ≠ GConfValueType.GCONF_VALUE_STRING →
      get_shortcuts_list_from_value value = []) ∧
    (∀ elements, value = some (GConfValue.list_of_strings elements) →
      get_shortcuts_list_from_value value = elements ∧
      (get_shortcuts_list_from_value value).length = elements.length) := by
  refine ⟨?_, ?_, ?_, ?_⟩
  · intro h
    subst h
    rfl
  · intro v h hne
    subst h
    simp [get_shortcuts_list_from_value, is_value_a_string_list, hne]
  · intro v h _ hne
    subst h
    simp [get_shortcuts_list_from_value, is_value_a_string_list, hne]
  · intro elements h
    subst h
    have e : get_shortcuts_list_from_value (some (GConfValue.list_of_strings elements)) =
        elements := by
      simp [get_shortcuts_list_from_value, is_value_a_string_list, GConfValue.type,
        gconf_value_get_list_type, gconf_value_get_list, copy_and_convert_string_list_eq]
    exact ⟨e, by rw [e]⟩

/-- C26 at a list of strings, a list of integers, a string and no value. -/
theorem C26_list_read_without_coercion_witness :
    get_shortcuts_list_from_value (some (GConfValue.list_of_strings ["b", "a", "c"])) =
      ["b", "a", "c"] ∧
    get_shortcuts_list_from_value (some (GConfValue.list_of_ints [1, 2])) = [] ∧
    get_shortcuts_list_from_value (some (GConfValue.string "a")) = [] ∧
    get_shortcuts_list_from_value none = [] :=
  ⟨((C26_list_read_without_coercion
      (some (GConfValue.list_of_strings ["b", "a", "c"]))).2.2.2 ["b", "a", "c"] rfl).1,
   (C26_list_read_without_coercion (some (GConfValue.list_of_ints [1, 2]))).2.2.1
      (GConfValue.list_of_ints [1, 2]) rfl (by decide) (by decide),
   (C26_list_read_without_coercion (some (GConfValue.string "a"))).2.1
      (GConfValue.string "a") rfl (by decide),
   (C26_list_read_without_coercion none).1 rfl⟩

/-- C28. For all lists, with or without repeated ids, `create_sync_lists`
computes the differences of multisets: an id occurs in `to_add` as often as it
occurs more in `desired` than in `current`, and in `to_remove` as often as it
occurs more in `current` than in `desired`.  So no id is in both outputs; and
an id desired twice and active once is still in `to_add`. -/
theorem C28_multiset_difference (desired current : List String) (x : String) :
    (create_sync_lists current desired strcmp).1.count x =
      desired.count x - current.count x ∧
    (create_sync_lists current desired strcmp).2.count x =
      current.count x - desired.count x ∧
    ¬ (x ∈ (create_sync_lists current desired strcmp).1 ∧
       x ∈ (create_sync_lists current desired strcmp).2) ∧
    create_sync_lists ["a"] ["a", "a"] strcmp = (["a"], []) := by
  have hc := create_sync_lists_count strcmp_isTotalCmp current desired x
  have hm := create_sync_lists_mem_count strcmp_isTotalCmp current desired x
  refine ⟨hc.1, hc.2, ?_, ?_⟩
  · rw [hm.1, hm.2]
    omega
  · simp [create_sync_lists, create_sync_lists_while, g_slist_sort, strcmp, strcmp_chars]

/-! ## Released modules, the order of the scan, the suffix of the table: claims -/

/-- C27, as the specification states it, fails: in the scenario (the key file
lists `/a`, which was watched before) the handler cancels the old monitor of
`/a`, then creates the monitor of `/a`, and only then opens `/a` to read it:
the subscription to `/a` precedes the scan of `/a`. -/
theorem C27_subscribe_after_scan_counterexample :
    (hd_plugin_configuration_configuration_loaded scenario_world scenario_priv
        scenario_keyfile).2 =
      [Effect.g_file_monitor_cancel "/a",
       Effect.g_file_monitor_directory "/a",
       Effect.g_dir_open "/a",
       Effect.g_object_notify "plugin-config-key-file",
       Effect.g_signal_emit (PluginSignal.ITEMS_CONFIGURATION_LOADED g_key_file_new)] := by
  rfl

/-- C27, amended.  During a successful configure (the key file has the
`X-PluginManager` group and a plugin directory list) each listed directory is
subscribed to immediately before it is scanned: after the cancellation of the
old monitors the handler does, for the directories in the order of the list,
`g_file_monitor_directory` and then `g_dir_open` of the same directory, and
after the last directory it loads the items configuration.  So the
subscription to a directory precedes the scan of that directory and of every
directory after it in the list, and follows the scan of every directory before
it. -/
theorem C27_subscribe_after_scan (w : World) (priv : HDPluginConfigurationPrivate)
    (keyfile : GKeyFile) (directories : List String)
    (hgroup : keyfile.g_key_file_has_group HD_PLUGIN_CONFIGURATION_CONFIG_GROUP = true)
    (hdirs : keyfile.g_key_file_get_string_list HD_PLUGIN_CONFIGURATION_CONFIG_GROUP
      w.HD_DESKTOP_CONFIG_KEY_PLUGIN_DIR = some directories) :
    ∃ cancelled items_key_file,
      (∀ e ∈ cancelled, ∃ monitor, e = Effect.g_file_monitor_cancel monitor) ∧
      (hd_plugin_configuration_configuration_loaded w priv keyfile).2 =
        cancelled ++
        ((directories.map g_strstrip).map
          (fun dir => [Effect.g_file_monitor_directory dir, Effect.g_dir_open dir])).flatten ++
        [Effect.g_object_notify "plugin-config-key-file",
         Effect.g_signal_emit (PluginSignal.ITEMS_CONFIGURATION_LOADED items_key_file)] := by
  obtain ⟨config_file, items_config_file, items_key_file, plugin_dirs, plugin_dir_files,
    plugin_dir_monitors, available_plugins, startup⟩ := priv
  have hcancel : ∀ (l : List (String × String)),
      ∀ e ∈ l.map (fun entry : String × String => Effect.g_file_monitor_cancel entry.2),
      ∃ monitor, e = Effect.g_file_monitor_cancel monitor := by
    intro l e h
    rcases List.mem_map.1 h with ⟨a, _, ha⟩
    exact ⟨a.2, ha.symm⟩
  simp only [hd_plugin_configuration_configuration_loaded, hgroup, hdirs,
    hd_plugin_configuration_load_plugin_configuration, Bool.not_true, Bool.false_eq_true,
    if_false, scan_plugin_dirs_order]
  cases plugin_dirs with
  | none => exact ⟨[], _, by simp, rfl⟩
  | some dirs => exact ⟨_, _, hcancel _, rfl⟩

/-- C27 in the scenario: the monitor of `/a` is created right before `/a` is
opened. -/
theorem C27_subscribe_after_scan_witness :
    ∃ cancelled items_key_file,
      (∀ e ∈ cancelled, ∃ monitor, e = Effect.g_file_monitor_cancel monitor) ∧
      (hd_plugin_configuration_configuration_loaded scenario_world scenario_priv
          scenario_keyfile).2 =
        cancelled ++
        ((["/a"].map g_strstrip).map
          (fun dir => [Effect.g_file_monitor_directory dir, Effect.g_dir_open dir])).flatten ++
        [Effect.g_object_notify "plugin-config-key-file",
         Effect.g_signal_emit (PluginSignal.ITEMS_CONFIGURATION_LOADED items_key_file)] :=
  C27_subscribe_after_scan scenario_world scenario_priv scenario_keyfile ["/a"]
    (by decide) (by decide)

/-- C29. In every state reached from `hd_plugin_configuration_new` by a
sequence of calls (runs, changes of the configuration file, changes of the
items configuration file, changes in a plugin directory, each in its own
world), every path in the table of available plugins ends in `.desktop`. -/
theorem C29_suffix_invariant (config_file : HDConfigFile)
    (calls : List (World × PluginConfigurationCall)) :
    ∀ path ∈ (plugin_configuration_steps (hd_plugin_configuration_new config_file)
        calls).available_plugins,
      g_str_has_suffix path ".desktop" = true :=
  plugin_configuration_steps_suffix calls _ (fun _ h => nomatch h)

/-- C29 in the scenario: after a run in a world whose configuration file
lists `/a` (so the run scans `/a` and finds `x.desktop`) and the creation of
`/a/y.desktop`, the table holds `/a/x.desktop` and `/a/y.desktop`, and each
ends in `.desktop`. -/
theorem C29_suffix_invariant_witness :
    (plugin_configuration_steps
        (hd_plugin_configuration_new scenario_priv.config_file)
        [({ scenario_world with hd_config_file_load_file := fun _ => some scenario_keyfile },
            PluginConfigurationCall.run),
         (scenario_world, PluginConfigurationCall.plugin_dir_changed "/a/y.desktop"
            GFileMonitorEvent.CREATED)]).available_plugins =
      ["/a/x.desktop", "/a/y.desktop"] ∧
    g_str_has_suffix "/a/x.desktop" ".desktop" = true ∧
    g_str_has_suffix "/a/y.desktop" ".desktop" = true :=
  ⟨by decide,
   C29_suffix_invariant scenario_priv.config_file
     [({ scenario_world with hd_config_file_load_file := fun _ => some scenario_keyfile },
         PluginConfigurationCall.run),
      (scenario_world, PluginConfigurationCall.plugin_dir_changed "/a/y.desktop"
         GFileMonitorEvent.CREATED)] "/a/x.desktop" (by decide),
   C29_suffix_invariant scenario_priv.config_file
     [({ scenario_world with hd_config_file_load_file := fun _ => some scenario_keyfile },
         PluginConfigurationCall.run),
      (scenario_world, PluginConfigurationCall.plugin_dir_changed "/a/y.desktop"
         GFileMonitorEvent.CREATED)] "/a/y.desktop" (by decide)⟩

/-! ## Bookmark shortcuts: claims -/

/-- C22, as the specification states it, fails: the counter of the loop is a
`guint`, so it takes `2 ^ 32` values, and the stored list may hold the id of
each of them.  For the URL `http://x.com/page` and the (finite) stored list of
the `2 ^ 32` ids `http___x_com_page-0`, `http___x_com_page-1`, ... the loop
has not ended after any number of rounds: no id is generated. -/
theorem C22_bookmark_id_counterexample :
    (scenario_all_ids "http___x_com_page").length = 2 ^ 32 ∧
    ∀ fuel, hd_shortcuts_add_bookmark_shortcut_id fuel (scenario_all_ids "http___x_com_page")
      "http://x.com/page" = none := by
  refine ⟨by simp [scenario_all_ids], fun fuel => ?_⟩
  have hP : ascii_string (g_strcanon (g_strndup (c_string "http://x.com/page") MAX_URL_LENGTH)
      ID_VALID_CHARS ID_SUBSTITUTOR) = "http___x_com_page" := by decide
  show hd_shortcuts_add_bookmark_shortcut_do_while
    (ascii_string (g_strcanon (g_strndup (c_string "http://x.com/page") MAX_URL_LENGTH)
      ID_VALID_CHARS ID_SUBSTITUTOR)) _ fuel 0 = none
  rw [hP]
  refine do_while_none _ _ (fun n hn => ?_) fuel 0 (by decide)
  exact List.mem_map.2 ⟨n, List.mem_range.2 hn, rfl⟩

/-- C22, amended.  For every bookmark URL and every stored id list of fewer
than `2 ^ 32` ids, the generated id is `P ++ "-" ++ decimal (n)`: `P` is the
first 150 bytes of the URL with every byte outside `[a-zA-Z0-9_-]` replaced by
`_`, and `n` is the least natural number for which that id is not in the
stored list; `n` is at most the length of the list, the loop ends within
`length + 1` rounds, and the generated id is not in the stored list. -/
theorem C22_bookmark_id (url : String) (list : List String)
    (hlength : list.length < 2 ^ 32) :
    ∃ (P : String) (n : Nat),
      P.data = ((c_string url).take 150).map
        (fun b => if (97 ≤ b ∧ b ≤ 122) ∨ (65 ≤ b ∧ b ≤ 90) ∨ (48 ≤ b ∧ b ≤ 57) ∨
            b = 45 ∨ b = 95 then Char.ofNat b else '_') ∧
      n ≤ list.length ∧
      (∀ fuel, list.length < fuel →
        hd_shortcuts_add_bookmark_shortcut_id fuel list url = some (P ++ "-" ++ toString n)) ∧
      P ++ "-" ++ toString n ∉ list ∧
      ∀ m, m < n → P ++ "-" ++ toString m ∈ list := by
  obtain ⟨n, hn, hsome, habsent, hbelow⟩ := bookmark_id_generated url list hlength
  refine ⟨_, n, ?_, hn, hsome, habsent, hbelow⟩
  · have hvalid : c_string ID_VALID_CHARS =
        [97, 98, 99, 100, 101, 102, 103, 104, 105, 106, 107, 108, 109, 110, 111, 112, 113, 114,
         115, 116, 117, 118, 119, 120, 121, 122, 65, 66, 67, 68, 69, 70, 71, 72, 73, 74, 75, 76,
         77, 78, 79, 80, 81, 82, 83, 84, 85, 86, 87, 88, 89, 90, 48, 49, 50, 51, 52, 53, 54, 55,
         56, 57, 45, 95] := by decide
    simp only [ascii_string, g_strcanon, g_strndup, MAX_URL_LENGTH, ID_SUBSTITUTOR, hvalid,
      List.map_map]
    apply List.map_congr_left
    intro b _
    have hiff : b ∈ [97, 98, 99, 100, 101, 102, 103, 104, 105, 106, 107, 108, 109, 110, 111,
         112, 113, 114,
         115, 116, 117, 118, 119, 120, 121, 122, 65, 66, 67, 68, 69, 70, 71, 72, 73, 74, 75, 76,
         77, 78, 79, 80, 81, 82, 83, 84, 85, 86, 87, 88, 89, 90, 48, 49, 50, 51, 52, 53, 54, 55,
         56, 57, 45, 95] ↔
        ((97 ≤ b ∧ b ≤ 122) ∨ (65 ≤ b ∧ b ≤ 90) ∨ (48 ≤ b ∧ b ≤ 57) ∨ b = 45 ∨ b = 95) := by
      simp only [List.mem_cons, List.mem_singleton, List.not_mem_nil, or_false]
      omega
    by_cases hb : (97 ≤ b ∧ b ≤ 122) ∨ (65 ≤ b ∧ b ≤ 90) ∨ (48 ≤ b ∧ b ≤ 57) ∨ b = 45 ∨ b = 95
    · simp only [Function.comp, if_pos hb, if_pos (hiff.2 hb)]
    · simp only [Function.comp, if_neg hb, if_neg (fun h => hb (hiff.1 h))]
      rfl

/-- C22 in the scenario: for the URL `http://x.com/page` with
`http___x_com_page-0` stored, the generated id is `http___x_com_page-1`. -/
theorem C22_bookmark_id_witness :
    ["http___x_com_page-0"].length < 2 ^ 32 ∧
    hd_shortcuts_add_bookmark_shortcut_id 2 ["http___x_com_page-0"] "http://x.com/page" =
      some "http___x_com_page-1" ∧
    ∃ (P : String) (n : Nat),
      P.data = ((c_string "http://x.com/page").take 150).map
        (fun b => if (97 ≤ b ∧ b ≤ 122) ∨ (65 ≤ b ∧ b ≤ 90) ∨ (48 ≤ b ∧ b ≤ 57) ∨
            b = 45 ∨ b = 95 then Char.ofNat b else '_') ∧
      n ≤ ["http___x_com_page-0"].length ∧
      (∀ fuel, ["http___x_com_page-0"].length < fuel →
        hd_shortcuts_add_bookmark_shortcut_id fuel ["http___x_com_page-0"]
          "http://x.com/page" = some (P ++ "-" ++ toString n)) ∧
      P ++ "-" ++ toString n ∉ ["http___x_com_page-0"] ∧
      ∀ m, m < n → P ++ "-" ++ toString m ∈ ["http___x_com_page-0"] :=
  ⟨by decide, by decide,
   C22_bookmark_id "http://x.com/page" ["http___x_com_page-0"] (by decide)⟩

end HildonDesktop
